import Mathlib

/-!
# Processor health classifier and routing recommender

A shallow embedding of `internal/domain/models.go`, `internal/health/calculator.go`
and `internal/routing/engine.go`, followed by theorems about it.

Modelling conventions
* Go `string`-based enum types (`TransactionResult`, `HealthStatus`, `PaymentMethod`,
  `Country`) are `String`, so that values outside the declared constants exist,
  as they do in Go.
* `float64` rates and scores are exact rationals (`ℚ`).  Window counts never exceed
  `WindowSize = 50`, so a quotient of two counts that differs from a threshold
  differs from it by far more than one unit in the last place.
* `time.Time` is an integer number of nanoseconds; every `time.Now()` read is an
  explicit argument.
* Go maps are association lists with distinct keys; the list order stands for
  the iteration order the runtime happens to choose.
* Pointers to freshly allocated structs are the structs themselves; the mutex is
  not modelled (every operation is one atomic step).
-/

/-! ## Go maps keyed by strings -/

/-- Association-list model of a Go `map[string]β`. -/
abbrev GoMap (β : Type) := List (String × β)

namespace GoMap

/-- Map read `m[k]` with the comma-ok result folded into an `Option`. -/
def get? {β : Type} (m : GoMap β) (k : String) : Option β :=
  match m with
  | [] => none
  | (k0, v0) :: rest => if k0 = k then some v0 else get? rest k

/-- Map write `m[k] = v`: overwrite the entry for `k`, or add one. -/
def set {β : Type} (m : GoMap β) (k : String) (v : β) : GoMap β :=
  match m with
  | [] => [(k, v)]
  | (k0, v0) :: rest => if k0 = k then (k, v) :: rest else (k0, v0) :: set rest k v

/-- The values of the map, in iteration order. -/
def values {β : Type} (m : GoMap β) : List β := m.map Prod.snd

end GoMap

/-! ## `internal/domain/models.go` -/

namespace domain

abbrev Time := Int

abbrev TransactionResult := String
abbrev ResultApproved : TransactionResult := "approved"
abbrev ResultDeclined : TransactionResult := "declined"
abbrev ResultError : TransactionResult := "error"
abbrev ResultTimeout : TransactionResult := "timeout"

abbrev HealthStatus := String
abbrev StatusHealthy : HealthStatus := "HEALTHY"
abbrev StatusDegraded : HealthStatus := "DEGRADED"
abbrev StatusDown : HealthStatus := "DOWN"

abbrev PaymentMethod := String
abbrev MethodPIX : PaymentMethod := "PIX"
abbrev MethodCard : PaymentMethod := "CARD"
abbrev MethodOXXO : PaymentMethod := "OXXO"
abbrev MethodPSE : PaymentMethod := "PSE"

abbrev Country := String
abbrev CountryBR : Country := "BR"
abbrev CountryMX : Country := "MX"
abbrev CountryCO : Country := "CO"

structure Transaction where
  ID : String
  ProcessorID : String
  Timestamp : Time
  Result : TransactionResult
  PaymentMethod : PaymentMethod
  Country : Country
  Amount : ℚ
  Currency : String
deriving DecidableEq

structure Processor where
  ID : String
  Name : String
  Countries : List Country
  PaymentMethods : List PaymentMethod
deriving DecidableEq

structure ProcessorHealth where
  ProcessorID : String
  Status : HealthStatus
  AuthorizationRate : ℚ
  TotalTransactions : Int
  SuccessCount : Int
  FailureCount : Int
  ErrorCount : Int
  LastUpdated : Time
  StatusChangedAt : Option Time
  PreviousStatus : HealthStatus
deriving DecidableEq

structure ProcessorRank where
  ProcessorID : String
  Rank : Int
  Status : HealthStatus
  AuthorizationRate : ℚ
  Recommended : Bool
  Reason : String
deriving DecidableEq

structure RoutingRecommendation where
  Recommendations : List ProcessorRank
  PaymentMethod : PaymentMethod
  Country : Country
  Timestamp : Time
deriving DecidableEq

structure HealthTransition where
  ProcessorID : String
  FromStatus : HealthStatus
  ToStatus : HealthStatus
  Timestamp : Time
  Reason : String
deriving DecidableEq

end domain

/-! ## `internal/health/calculator.go` -/

namespace health

open domain

def WindowSize : Nat := 50
/-- Ten minutes, in nanoseconds. -/
def TimeWindow : Int := 10 * (60 * 1000000000)
def HealthyThreshold : ℚ := 0.65
def DegradedThreshold : ℚ := 0.30
def ErrorRateDown : ℚ := 0.50
def ErrorRateDegraded : ℚ := 0.30
def MinTransactions : Int := 10

structure Calculator where
  transactions : GoMap (List Transaction)
  processors : GoMap ProcessorHealth
  transitions : List HealthTransition

def NewCalculator : Calculator :=
  { transactions := [], processors := [], transitions := [] }

/-- Status from the two rates and the window total (`Calculator.determineStatus`). -/
def determineStatus (authRate errorRate : ℚ) (total : Int) : HealthStatus :=
  if total < MinTransactions then StatusHealthy
  else if errorRate > ErrorRateDown then StatusDown
  else if errorRate > ErrorRateDegraded then StatusDegraded
  else if authRate < DegradedThreshold then StatusDown
  else if authRate < HealthyThreshold then StatusDegraded
  else StatusHealthy

/-- Human-readable reason of a transition (`Calculator.transitionReason`). -/
def transitionReason (authRate errorRate : ℚ) : String :=
  if errorRate > ErrorRateDown then "High error/timeout rate (>50%)"
  else if errorRate > ErrorRateDegraded then "Elevated error/timeout rate (>30%)"
  else if authRate < DegradedThreshold then "Very low authorization rate (<30%)"
  else if authRate < HealthyThreshold then "Low authorization rate (<65%)"
  else "Performance recovered"

/-- The three `time.Now()` reads made by one `RecordTransaction` call. -/
structure Clock where
  /-- The read in `pruneTransactions` (the cutoff is this minus `TimeWindow`). -/
  prune : Time
  /-- The read in `calculateHealth` that fills `LastUpdated`. -/
  updated : Time
  /-- The read in `calculateHealth` that stamps a transition. -/
  changed : Time

/-- Running counters of the `switch tx.Result` loop in `calculateHealth`. -/
structure Tally where
  approved : Int
  declined : Int
  errors : Int
deriving DecidableEq

/-- One iteration of the counting loop. -/
def tallyStep (t : Tally) (tx : Transaction) : Tally :=
  if tx.Result = ResultApproved then { t with approved := t.approved + 1 }
  else if tx.Result = ResultDeclined then { t with declined := t.declined + 1 }
  else if tx.Result = ResultError ∨ tx.Result = ResultTimeout then
    { t with errors := t.errors + 1 }
  else t

/-- The counting loop over the scoring window. -/
def tally (window : List Transaction) : Tally :=
  window.foldl tallyStep { approved := 0, declined := 0, errors := 0 }

/-- The scoring window: the last `WindowSize` entries of the history. -/
def scoringWindow (txs : List Transaction) : List Transaction :=
  if txs.length > WindowSize then txs.drop (txs.length - WindowSize) else txs

/-- The history stored for a processor (`nil` when the key is absent). -/
def history (c : Calculator) (processorID : String) : List Transaction :=
  (c.transactions.get? processorID).getD []

/-- Keep only the entries after the cutoff, and at most `2 * WindowSize` of them
(`Calculator.pruneTransactions`). -/
def pruneTransactions (now : Time) (c : Calculator) (processorID : String) : Calculator :=
  let txs := history c processorID
  if txs.length = 0 then c
  else
    let cutoff := now - TimeWindow
    let recent := txs.filter (fun tx => decide (tx.Timestamp > cutoff))
    let recent :=
      if recent.length > WindowSize * 2 then recent.drop (recent.length - WindowSize * 2)
      else recent
    { c with transactions := c.transactions.set processorID recent }

/-- Authorization rate from the three counters. -/
def authorizationRate (t : Tally) : ℚ :=
  let validAttempts := t.approved + t.declined
  if validAttempts > 0 then (t.approved : ℚ) / (validAttempts : ℚ)
  else if t.errors > 0 then 0
  else 1

/-- Recompute, store and return the snapshot of a processor, logging a transition
when the status changed (`Calculator.calculateHealth`). -/
def calculateHealth (updated changed : Time) (c : Calculator) (processorID : String) :
    ProcessorHealth × Calculator :=
  let txs := history c processorID
  let h0 : ProcessorHealth :=
    { ProcessorID := processorID, Status := "", AuthorizationRate := 0,
      TotalTransactions := 0, SuccessCount := 0, FailureCount := 0, ErrorCount := 0,
      LastUpdated := updated, StatusChangedAt := none, PreviousStatus := "" }
  if txs.length = 0 then
    let h := { h0 with Status := StatusHealthy, AuthorizationRate := 1 }
    (h, { c with processors := c.processors.set processorID h })
  else
    let window := scoringWindow txs
    let t := tally window
    let total : Int := window.length
    let h := { h0 with TotalTransactions := total, SuccessCount := t.approved,
                       FailureCount := t.declined, ErrorCount := t.errors,
                       AuthorizationRate := authorizationRate t }
    let errorRate : ℚ := (t.errors : ℚ) / (total : ℚ)
    let previousStatus :=
      match c.processors.get? processorID with
      | some prev => prev.Status
      | none => StatusHealthy
    let newStatus := determineStatus h.AuthorizationRate errorRate total
    let h := { h with Status := newStatus, PreviousStatus := previousStatus }
    if newStatus ≠ previousStatus ∧ (c.processors.get? processorID).isSome then
      let h := { h with StatusChangedAt := some changed }
      let tr : HealthTransition :=
        { ProcessorID := processorID, FromStatus := previousStatus, ToStatus := newStatus,
          Timestamp := changed, Reason := transitionReason h.AuthorizationRate errorRate }
      (h, { c with transitions := c.transitions ++ [tr],
                   processors := c.processors.set processorID h })
    else
      (h, { c with processors := c.processors.set processorID h })

/-- Append the outcome, prune, recompute (`Calculator.RecordTransaction`). -/
def RecordTransaction (clk : Clock) (c : Calculator) (tx : Transaction) :
    ProcessorHealth × Calculator :=
  let c1 := { c with transactions :=
                c.transactions.set tx.ProcessorID (history c tx.ProcessorID ++ [tx]) }
  let c2 := pruneTransactions clk.prune c1 tx.ProcessorID
  calculateHealth clk.updated clk.changed c2 tx.ProcessorID

/-- Stored snapshot, or the optimistic default (`Calculator.GetHealth`). -/
def GetHealth (now : Time) (c : Calculator) (processorID : String) : ProcessorHealth :=
  match c.processors.get? processorID with
  | some h => h
  | none =>
    { ProcessorID := processorID, Status := StatusHealthy, AuthorizationRate := 1,
      TotalTransactions := 0, SuccessCount := 0, FailureCount := 0, ErrorCount := 0,
      LastUpdated := now, StatusChangedAt := none, PreviousStatus := "" }

/-- Every stored snapshot (`Calculator.GetAllHealth`). -/
def GetAllHealth (c : Calculator) : List ProcessorHealth := c.processors.values

/-- Transitions stamped after `since` (`Calculator.GetTransitions`). -/
def GetTransitions (c : Calculator) (since : Time) : List HealthTransition :=
  c.transitions.filter (fun t => decide (t.Timestamp > since))

/-- The last `limit` outcomes of a processor (`Calculator.GetRecentTransactions`). -/
def GetRecentTransactions (c : Calculator) (processorID : String) (limit : Int) :
    List Transaction :=
  let txs := history c processorID
  if txs.length = 0 then []
  else if limit > 0 ∧ (txs.length : Int) > limit then txs.drop (txs.length - limit.toNat)
  else txs

end health

/-! ## `sort.Slice` -/

namespace sort

/-- What `sort.Slice` promises of the rearrangement `run less l` it performs: the
result holds the same elements, and when `less` is a strict weak ordering
(asymmetric and negatively transitive) no element is `less` than an earlier one.
The order of elements that compare equal is left open. -/
structure SliceContract {α : Type} (run : (α → α → Bool) → List α → List α) : Prop where
  perm : ∀ less l, (run less l).Perm l
  sorted : ∀ less l,
    (∀ a b, less a b = true → less b a = false) →
    (∀ a b c, less a b = false → less b c = false → less a c = false) →
    (run less l).Pairwise (fun a b => less b a = false)

/-- Inner loop of insertion sort on the reversed sorted prefix: the new element
`x` moves towards the front while it is `less` than its left neighbour. -/
def sinkLeft {α : Type} (less : α → α → Bool) (x : α) : List α → List α
  | [] => [x]
  | y :: rev => if less x y then y :: sinkLeft less x rev else x :: y :: rev

/-- Insertion sort as run by `sort.Slice` on slices of at most 12 elements;
`acc` is the sorted prefix, last element first. -/
def insertionSortAux {α : Type} (less : α → α → Bool) (acc : List α) : List α → List α
  | [] => acc.reverse
  | x :: rest => insertionSortAux less (sinkLeft less x acc) rest

def insertionSort {α : Type} (less : α → α → Bool) (l : List α) : List α :=
  insertionSortAux less [] l

end sort

/-! ## `internal/routing/engine.go` -/

namespace routing

open domain

structure Engine where
  calculator : health.Calculator
  processors : GoMap Processor

def NewEngine (c : health.Calculator) : Engine :=
  { calculator := c, processors := [] }

def RegisterProcessor (e : Engine) (p : Processor) : Engine :=
  { e with processors := e.processors.set p.ID p }

def GetProcessors (e : Engine) : List Processor := e.processors.values

def supportsMethod (p : Processor) (method : PaymentMethod) : Bool :=
  p.PaymentMethods.any (fun m => decide (m = method))

def supportsCountry (p : Processor) (country : Country) : Bool :=
  p.Countries.any (fun c => decide (c = country))

def findCandidates (e : Engine) (method : PaymentMethod) (country : Country) :
    List Processor :=
  e.processors.values.filter (fun p => supportsMethod p method && supportsCountry p country)

/-- The local `scored` struct of `rankProcessors`. -/
structure scored where
  processor : Processor
  health : ProcessorHealth
  score : ℚ
deriving DecidableEq

def calculateScore (h : ProcessorHealth) : ℚ :=
  let score := h.AuthorizationRate * 100
  let score :=
    if h.Status = StatusDown then 0
    else if h.Status = StatusDegraded then score * 0.5
    else score
  if h.TotalTransactions > 30 then score + 5 else score

def reasonForRank (h : ProcessorHealth) (_rank : Int) (recommended : Bool) : String :=
  if h.Status = StatusDown then "Processor is DOWN - not recommended"
  else if h.Status = StatusDegraded then
    if recommended then "Best available but DEGRADED - use with caution"
    else "DEGRADED - available as fallback"
  else if recommended then "Best option - highest authorization rate"
  else "Healthy fallback option"

/-- The comparator handed to `sort.Slice`. -/
def scoreLess (a b : scored) : Bool := decide (a.score > b.score)

/-- The `Build rankings` loop, from index `i` on. -/
def buildRankings (i : Nat) : List scored → List ProcessorRank
  | [] => []
  | s :: rest =>
    let recommended := decide (i = 0) && decide (s.health.Status ≠ StatusDown)
    { ProcessorID := s.processor.ID, Rank := (i : Int) + 1, Status := s.health.Status,
      AuthorizationRate := s.health.AuthorizationRate, Recommended := recommended,
      Reason := reasonForRank s.health i recommended } :: buildRankings (i + 1) rest

/-- The scoring loop of `rankProcessors`. -/
def scoreAll (now : Time) (e : Engine) (processors : List Processor) : List scored :=
  processors.map (fun p =>
    let h := health.GetHealth now e.calculator p.ID
    { processor := p, health := h, score := calculateScore h })

/-- The type of `sort.Slice` specialised to the `scores` slice. -/
abbrev Sorter := (scored → scored → Bool) → List scored → List scored

/-- Score, sort by score descending, build the rankings (`Engine.rankProcessors`);
`Slice` is the `sort.Slice` in use. -/
def rankProcessors (Slice : Sorter) (now : Time) (e : Engine)
    (processors : List Processor) : List ProcessorRank :=
  if processors.length = 0 then []
  else buildRankings 0 (Slice scoreLess (scoreAll now e processors))

def Recommend (Slice : Sorter) (now : Time) (e : Engine)
    (method : PaymentMethod) (country : Country) (_amount : ℚ) : RoutingRecommendation :=
  let candidates := findCandidates e method country
  let rankings := rankProcessors Slice now e candidates
  { Recommendations := rankings, PaymentMethod := method, Country := country,
    Timestamp := now }

end routing

/-! ### Test fixtures, after `engine_test.go` -/

namespace routing

open domain

/-- A processor supporting PIX in BR, as registered by the tests. -/
def pixBR (id : String) : Processor :=
  { ID := id, Name := id, Countries := [CountryBR], PaymentMethods := [MethodPIX] }

/-- The registry of `TestEngine_FilterByPaymentMethod`, over a fresh calculator. -/
def filterEngine : Engine :=
  RegisterProcessor
    (RegisterProcessor (NewEngine health.NewCalculator)
      { ID := "processor_pix", Name := "", Countries := [CountryBR],
        PaymentMethods := [MethodPIX] })
    { ID := "processor_card", Name := "", Countries := [CountryBR],
      PaymentMethods := [MethodCard] }

/-- An engine over calculator state `c` with `processor_a` and `processor_b` registered. -/
def twoProcessorEngine (c : health.Calculator) : Engine :=
  RegisterProcessor (RegisterProcessor (NewEngine c) (pixBR "processor_a"))
    (pixBR "processor_b")

end routing

/-! ## Sequences of `RecordTransaction` calls -/

namespace health

open domain

/-- Record a sequence of outcomes, each call with its own clock reads.  The
result is the list of returned snapshots, in call order, and the final state. -/
def recordAll (c : Calculator) : List (Clock × Transaction) →
    List ProcessorHealth × Calculator
  | [] => ([], c)
  | s :: rest =>
    let r := RecordTransaction s.1 c s.2
    let rs := recordAll r.2 rest
    (r.1 :: rs.1, rs.2)

/-- What `pruneTransactions` leaves of a history `txs` at clock reading `now`. -/
def retained (now : Time) (txs : List Transaction) : List Transaction :=
  let recent := txs.filter (fun tx => decide (tx.Timestamp > now - TimeWindow))
  if recent.length > WindowSize * 2 then recent.drop (recent.length - WindowSize * 2)
  else recent

/-- An outcome is inside the retention window at a clock reading. -/
def Fresh (now : Time) (tx : Transaction) : Prop := tx.Timestamp > now - TimeWindow

instance (now : Time) (tx : Transaction) : Decidable (Fresh now tx) := by
  unfold Fresh; infer_instance

/-- Authorization rate `calculateHealth` derives from a non-empty history. -/
def windowAuthRate (txs : List Transaction) : ℚ :=
  authorizationRate (tally (scoringWindow txs))

/-- Error rate `calculateHealth` derives from a non-empty history. -/
def windowErrorRate (txs : List Transaction) : ℚ :=
  ((tally (scoringWindow txs)).errors : ℚ) / (((scoringWindow txs).length : Int) : ℚ)

/-- Status `calculateHealth` derives from a non-empty history. -/
def windowStatus (txs : List Transaction) : HealthStatus :=
  determineStatus (windowAuthRate txs) (windowErrorRate txs) ((scoringWindow txs).length : Int)

/-- The status `calculateHealth` compares the new one against. -/
def previousStatusOf (c : Calculator) (processorID : String) : HealthStatus :=
  match c.processors.get? processorID with
  | some prev => prev.Status
  | none => StatusHealthy

/-- The state `calculateHealth` runs on inside `RecordTransaction`. -/
def pruned (clk : Clock) (c : Calculator) (tx : Transaction) : Calculator :=
  pruneTransactions clk.prune
    { c with transactions :=
        c.transactions.set tx.ProcessorID (history c tx.ProcessorID ++ [tx]) }
    tx.ProcessorID

/-- The shape every calculator state built through the API has: the keys of the
snapshot map are distinct (it is a Go map) and each snapshot is filed under its own
processor id. -/
def WellFormed (c : Calculator) : Prop :=
  (c.processors.map Prod.fst).Nodup ∧ ∀ kv ∈ c.processors, kv.2.ProcessorID = kv.1

/-- One call of the calculator API, with the clock reads it makes. -/
inductive Op where
  | record (clk : Clock) (tx : Transaction)
  | getHealth (now : Time) (processorID : String)
  | getAllHealth
  | getTransitions (since : Time)
  | getRecentTransactions (processorID : String) (limit : Int)

/-- The calculator state after one API call.  `RecordTransaction` is the only
method whose body assigns to the receiver; `GetHealth`, `GetAllHealth`,
`GetTransitions` and `GetRecentTransactions` take the read lock and only read. -/
def step (c : Calculator) : Op → Calculator
  | Op.record clk tx => (RecordTransaction clk c tx).2
  | Op.getHealth _ _ => c
  | Op.getAllHealth => c
  | Op.getTransitions _ => c
  | Op.getRecentTransactions _ _ => c

/-- The calculator state after a sequence of API calls. -/
def run (c : Calculator) (ops : List Op) : Calculator := ops.foldl step c

/-- The calls that are `GetHealth` or `GetAllHealth`. -/
def Op.isHealthQuery : Op → Bool
  | Op.getHealth _ _ => true
  | Op.getAllHealth => true
  | _ => false

/-- The result categories the counting loop knows. -/
def recognized (r : TransactionResult) : Bool :=
  decide (r = ResultApproved) || decide (r = ResultDeclined) ||
    decide (r = ResultError) || decide (r = ResultTimeout)

/-! ### Test fixtures, after `createTx` in `calculator_test.go` -/

/-- All three clock reads of a call at the same instant. -/
def clockAt (t : Time) : Clock := { prune := t, updated := t, changed := t }

/-- An outcome for processor `p` with result `r`, stamped `t`. -/
def createTx (p : String) (r : TransactionResult) (t : Time) : Transaction :=
  { ID := "test-tx", ProcessorID := p, Timestamp := t, Result := r,
    PaymentMethod := MethodPIX, Country := CountryBR, Amount := 100, Currency := "BRL" }

/-- Record `n` outcomes with result `r` for `p`, all stamped and recorded at instant 0. -/
def burst (p : String) (r : TransactionResult) (n : Nat) : List (Clock × Transaction) :=
  List.replicate n (clockAt 0, createTx p r 0)

/-- Eleven minutes, in nanoseconds. -/
def elevenMinutes : Time := 11 * (60 * 1000000000)

end health

/-! ## Basic facts -/

namespace GoMap

theorem get?_set_self {β : Type} (m : GoMap β) (k : String) (v : β) :
    (m.set k v).get? k = some v := by
  induction m with
  | nil => simp [set, get?]
  | cons kv rest ih =>
    obtain ⟨k0, v0⟩ := kv
    by_cases h : k0 = k
    · simp [set, get?, h]
    · simp [set, get?, h, ih]

theorem get?_set_ne {β : Type} (m : GoMap β) (k k1 : String) (v : β) (hne : k1 ≠ k) :
    (m.set k v).get? k1 = m.get? k1 := by
  induction m with
  | nil => simp [set, get?, Ne.symm hne]
  | cons kv rest ih =>
    obtain ⟨k0, v0⟩ := kv
    by_cases h : k0 = k
    · subst h
      simp [set, get?, Ne.symm hne]
    · by_cases h1 : k0 = k1
      · subst h1
        simp [set, get?, h]
      · simp [set, get?, h, h1, ih]

end GoMap

namespace health

open domain

theorem healthyThreshold_eq : HealthyThreshold = 13 / 20 := by
  norm_num [HealthyThreshold]

theorem degradedThreshold_eq : DegradedThreshold = 3 / 10 := by
  norm_num [DegradedThreshold]

theorem errorRateDown_eq : ErrorRateDown = 1 / 2 := by
  norm_num [ErrorRateDown]

theorem errorRateDegraded_eq : ErrorRateDegraded = 3 / 10 := by
  norm_num [ErrorRateDegraded]

theorem determineStatus_eq (a e : ℚ) (n : Int) :
    determineStatus a e n =
      if n < 10 then StatusHealthy
      else if e > 1 / 2 then StatusDown
      else if e > 3 / 10 then StatusDegraded
      else if a < 3 / 10 then StatusDown
      else if a < 13 / 20 then StatusDegraded
      else StatusHealthy := by
  simp only [determineStatus, healthyThreshold_eq, degradedThreshold_eq, errorRateDown_eq,
    errorRateDegraded_eq, MinTransactions]

/-- The counters after the loop, started from arbitrary values. -/
theorem foldl_tallyStep (l : List Transaction) (t : Tally) :
    l.foldl tallyStep t =
      { approved := t.approved + (l.countP (fun tx => decide (tx.Result = ResultApproved)) : Nat),
        declined := t.declined + (l.countP (fun tx => decide (tx.Result = ResultDeclined)) : Nat),
        errors := t.errors +
          (l.countP (fun tx => decide (tx.Result = ResultError ∨ tx.Result = ResultTimeout)) : Nat) } := by
  induction l generalizing t with
  | nil => simp
  | cons tx rest ih =>
    rw [List.foldl_cons, ih]
    by_cases h1 : tx.Result = "approved"
    · simp [tallyStep, ResultApproved, ResultDeclined, ResultError, ResultTimeout, h1,
        List.countP_cons, add_assoc, add_comm]
    · by_cases h2 : tx.Result = "declined"
      · simp [tallyStep, ResultApproved, ResultDeclined, ResultError, ResultTimeout, h2,
          List.countP_cons, add_assoc, add_comm]
      · by_cases h3 : tx.Result = "error"
        · simp [tallyStep, ResultApproved, ResultDeclined, ResultError, ResultTimeout, h3,
            List.countP_cons, add_assoc, add_comm]
        · by_cases h4 : tx.Result = "timeout"
          · simp [tallyStep, ResultApproved, ResultDeclined, ResultError, ResultTimeout, h4,
              List.countP_cons, add_assoc, add_comm]
          · simp [tallyStep, ResultApproved, ResultDeclined, ResultError, ResultTimeout,
              h1, h2, h3, h4, List.countP_cons]

theorem tally_eq (l : List Transaction) :
    tally l =
      { approved := (l.countP (fun tx => decide (tx.Result = ResultApproved)) : Nat),
        declined := (l.countP (fun tx => decide (tx.Result = ResultDeclined)) : Nat),
        errors :=
          (l.countP (fun tx => decide (tx.Result = ResultError ∨ tx.Result = ResultTimeout)) : Nat) } := by
  simp [tally, foldl_tallyStep]

theorem history_set (c : Calculator) (p q : String) (l : List Transaction) :
    history { c with transactions := c.transactions.set p l } q =
      if q = p then l else history c q := by
  by_cases h : q = p
  · subst h
    simp [history, GoMap.get?_set_self]
  · simp [history, GoMap.get?_set_ne _ _ _ _ h, h]

theorem pruneTransactions_history (now : Time) (c : Calculator) (p q : String) :
    history (pruneTransactions now c p) q =
      if q = p then retained now (history c p) else history c q := by
  unfold pruneTransactions
  by_cases h0 : (history c p).length = 0
  · have hnil : history c p = [] := List.length_eq_zero.mp h0
    by_cases h : q = p
    · subst h
      simp [hnil, retained]
    · simp [hnil, h]
  · simp only [h0, if_false]
    rw [history_set]
    rfl

theorem pruneTransactions_processors (now : Time) (c : Calculator) (p : String) :
    (pruneTransactions now c p).processors = c.processors := by
  unfold pruneTransactions
  by_cases h0 : (history c p).length = 0 <;> simp [h0]

theorem pruneTransactions_transitions (now : Time) (c : Calculator) (p : String) :
    (pruneTransactions now c p).transitions = c.transitions := by
  unfold pruneTransactions
  by_cases h0 : (history c p).length = 0 <;> simp [h0]

theorem calculateHealth_transactions (u ch : Time) (c : Calculator) (p : String) :
    (calculateHealth u ch c p).2.transactions = c.transactions := by
  unfold calculateHealth
  simp only
  split
  · rfl
  · split <;> rfl

theorem calculateHealth_history (u ch : Time) (c : Calculator) (p q : String) :
    history (calculateHealth u ch c p).2 q = history c q := by
  simp [history, calculateHealth_transactions]

/-- The snapshot returned for an empty history. -/
theorem calculateHealth_fst_of_nil (u ch : Time) (c : Calculator) (p : String)
    (h : history c p = []) :
    (calculateHealth u ch c p).1 =
      { ProcessorID := p, Status := StatusHealthy, AuthorizationRate := 1,
        TotalTransactions := 0, SuccessCount := 0, FailureCount := 0, ErrorCount := 0,
        LastUpdated := u, StatusChangedAt := none, PreviousStatus := "" } := by
  unfold calculateHealth
  simp [h]

/-- The snapshot returned for a non-empty history. -/
theorem calculateHealth_fst_of_ne_nil (u ch : Time) (c : Calculator) (p : String)
    (h : history c p ≠ []) :
    (calculateHealth u ch c p).1 =
      { ProcessorID := p, Status := windowStatus (history c p),
        AuthorizationRate := windowAuthRate (history c p),
        TotalTransactions := ((scoringWindow (history c p)).length : Int),
        SuccessCount := (tally (scoringWindow (history c p))).approved,
        FailureCount := (tally (scoringWindow (history c p))).declined,
        ErrorCount := (tally (scoringWindow (history c p))).errors,
        LastUpdated := u,
        StatusChangedAt :=
          if windowStatus (history c p) ≠ previousStatusOf c p ∧
              (c.processors.get? p).isSome then some ch else none,
        PreviousStatus := previousStatusOf c p } := by
  have h0 : ¬ (history c p).length = 0 := fun hl => h (List.length_eq_zero.mp hl)
  unfold calculateHealth
  simp only [h0, if_false]
  split <;> rename_i hc
  · have hc1 : windowStatus (history c p) ≠ previousStatusOf c p ∧
        (c.processors.get? p).isSome := hc
    rw [if_pos hc1]
    rfl
  · have hc1 : ¬ (windowStatus (history c p) ≠ previousStatusOf c p ∧
        (c.processors.get? p).isSome) := hc
    rw [if_neg hc1]
    rfl

/-- The transition log after `calculateHealth`. -/
theorem calculateHealth_transitions (u ch : Time) (c : Calculator) (p : String) :
    (calculateHealth u ch c p).2.transitions =
      if history c p ≠ [] ∧ windowStatus (history c p) ≠ previousStatusOf c p ∧
          (c.processors.get? p).isSome then
        c.transitions ++
          [{ ProcessorID := p, FromStatus := previousStatusOf c p,
             ToStatus := windowStatus (history c p), Timestamp := ch,
             Reason := transitionReason (windowAuthRate (history c p))
               (windowErrorRate (history c p)) }]
      else c.transitions := by
  by_cases h : history c p = []
  · unfold calculateHealth
    simp [h]
  · have h0 : ¬ (history c p).length = 0 := fun hl => h (List.length_eq_zero.mp hl)
    unfold calculateHealth
    simp only [h0, if_false]
    split <;> rename_i hc
    · have hc1 : windowStatus (history c p) ≠ previousStatusOf c p ∧
          (c.processors.get? p).isSome := hc
      rw [if_pos ⟨h, hc1⟩]
      rfl
    · have hc1 : ¬ (windowStatus (history c p) ≠ previousStatusOf c p ∧
          (c.processors.get? p).isSome) := hc
      rw [if_neg (fun hx => hc1 hx.2)]

/-- The stored snapshot after `calculateHealth` is the returned one. -/
theorem calculateHealth_processors (u ch : Time) (c : Calculator) (p : String) :
    (calculateHealth u ch c p).2.processors =
      c.processors.set p (calculateHealth u ch c p).1 := by
  unfold calculateHealth
  simp only
  split
  · rfl
  · split <;> rfl

theorem RecordTransaction_eq (clk : Clock) (c : Calculator) (tx : Transaction) :
    RecordTransaction clk c tx =
      calculateHealth clk.updated clk.changed (pruned clk c tx) tx.ProcessorID := rfl

theorem pruned_history (clk : Clock) (c : Calculator) (tx : Transaction) (q : String) :
    history (pruned clk c tx) q =
      if q = tx.ProcessorID then retained clk.prune (history c tx.ProcessorID ++ [tx])
      else history c q := by
  unfold pruned
  rw [pruneTransactions_history, history_set, history_set]
  by_cases h : q = tx.ProcessorID <;> simp [h]

theorem pruned_processors (clk : Clock) (c : Calculator) (tx : Transaction) :
    (pruned clk c tx).processors = c.processors := by
  unfold pruned
  rw [pruneTransactions_processors]

theorem pruned_transitions (clk : Clock) (c : Calculator) (tx : Transaction) :
    (pruned clk c tx).transitions = c.transitions := by
  unfold pruned
  rw [pruneTransactions_transitions]

theorem pruned_previousStatusOf (clk : Clock) (c : Calculator) (tx : Transaction) (p : String) :
    previousStatusOf (pruned clk c tx) p = previousStatusOf c p := by
  simp [previousStatusOf, pruned_processors]

/-- The history of the recorded processor after `RecordTransaction`. -/
theorem RecordTransaction_history (clk : Clock) (c : Calculator) (tx : Transaction)
    (q : String) :
    history (RecordTransaction clk c tx).2 q =
      if q = tx.ProcessorID then retained clk.prune (history c tx.ProcessorID ++ [tx])
      else history c q := by
  rw [RecordTransaction_eq, calculateHealth_history, pruned_history]

/-- The snapshot returned by `RecordTransaction` when the pruned history is empty. -/
theorem RecordTransaction_fst_of_nil (clk : Clock) (c : Calculator) (tx : Transaction)
    (h : retained clk.prune (history c tx.ProcessorID ++ [tx]) = []) :
    (RecordTransaction clk c tx).1 =
      { ProcessorID := tx.ProcessorID, Status := StatusHealthy, AuthorizationRate := 1,
        TotalTransactions := 0, SuccessCount := 0, FailureCount := 0, ErrorCount := 0,
        LastUpdated := clk.updated, StatusChangedAt := none, PreviousStatus := "" } := by
  rw [RecordTransaction_eq]
  apply calculateHealth_fst_of_nil
  rw [pruned_history, if_pos rfl, h]

/-- The snapshot returned by `RecordTransaction` when the pruned history is not empty. -/
theorem RecordTransaction_fst_of_ne_nil (clk : Clock) (c : Calculator) (tx : Transaction)
    (h : retained clk.prune (history c tx.ProcessorID ++ [tx]) ≠ []) :
    (RecordTransaction clk c tx).1 =
      { ProcessorID := tx.ProcessorID,
        Status := windowStatus (retained clk.prune (history c tx.ProcessorID ++ [tx])),
        AuthorizationRate :=
          windowAuthRate (retained clk.prune (history c tx.ProcessorID ++ [tx])),
        TotalTransactions :=
          ((scoringWindow (retained clk.prune (history c tx.ProcessorID ++ [tx]))).length : Int),
        SuccessCount :=
          (tally (scoringWindow (retained clk.prune (history c tx.ProcessorID ++ [tx])))).approved,
        FailureCount :=
          (tally (scoringWindow (retained clk.prune (history c tx.ProcessorID ++ [tx])))).declined,
        ErrorCount :=
          (tally (scoringWindow (retained clk.prune (history c tx.ProcessorID ++ [tx])))).errors,
        LastUpdated := clk.updated,
        StatusChangedAt :=
          if windowStatus (retained clk.prune (history c tx.ProcessorID ++ [tx])) ≠
                previousStatusOf c tx.ProcessorID ∧
              (c.processors.get? tx.ProcessorID).isSome then some clk.changed else none,
        PreviousStatus := previousStatusOf c tx.ProcessorID } := by
  have hh : history (pruned clk c tx) tx.ProcessorID =
      retained clk.prune (history c tx.ProcessorID ++ [tx]) := by
    rw [pruned_history, if_pos rfl]
  rw [RecordTransaction_eq, calculateHealth_fst_of_ne_nil _ _ _ _ (by rw [hh]; exact h), hh,
    pruned_previousStatusOf, pruned_processors]

/-- The transition log after `RecordTransaction`. -/
theorem RecordTransaction_transitions (clk : Clock) (c : Calculator) (tx : Transaction) :
    (RecordTransaction clk c tx).2.transitions =
      if retained clk.prune (history c tx.ProcessorID ++ [tx]) ≠ [] ∧
          windowStatus (retained clk.prune (history c tx.ProcessorID ++ [tx])) ≠
            previousStatusOf c tx.ProcessorID ∧
          (c.processors.get? tx.ProcessorID).isSome then
        c.transitions ++
          [{ ProcessorID := tx.ProcessorID, FromStatus := previousStatusOf c tx.ProcessorID,
             ToStatus := windowStatus (retained clk.prune (history c tx.ProcessorID ++ [tx])),
             Timestamp := clk.changed,
             Reason := transitionReason
               (windowAuthRate (retained clk.prune (history c tx.ProcessorID ++ [tx])))
               (windowErrorRate (retained clk.prune (history c tx.ProcessorID ++ [tx]))) }]
      else c.transitions := by
  have hh : history (pruned clk c tx) tx.ProcessorID =
      retained clk.prune (history c tx.ProcessorID ++ [tx]) := by
    rw [pruned_history, if_pos rfl]
  rw [RecordTransaction_eq, calculateHealth_transitions, hh, pruned_previousStatusOf,
    pruned_processors, pruned_transitions]

/-- The stored snapshots after `RecordTransaction`. -/
theorem RecordTransaction_processors (clk : Clock) (c : Calculator) (tx : Transaction) :
    (RecordTransaction clk c tx).2.processors =
      c.processors.set tx.ProcessorID (RecordTransaction clk c tx).1 := by
  rw [RecordTransaction_eq, calculateHealth_processors, pruned_processors]

theorem scoringWindow_of_le (txs : List Transaction) (h : txs.length ≤ WindowSize) :
    scoringWindow txs = txs := by
  unfold scoringWindow
  rw [if_neg (by omega)]

theorem scoringWindow_ne_nil (txs : List Transaction) (h : txs ≠ []) :
    scoringWindow txs ≠ [] := by
  unfold scoringWindow
  split
  · rename_i hl
    intro hd
    have := congrArg List.length hd
    simp [WindowSize] at this hl
    omega
  · exact h

theorem retained_of_fresh (now : Time) (txs : List Transaction)
    (hf : ∀ t ∈ txs, Fresh now t) (hl : txs.length ≤ WindowSize * 2) :
    retained now txs = txs := by
  have hfil : txs.filter (fun tx => decide (tx.Timestamp > now - TimeWindow)) = txs := by
    rw [List.filter_eq_self]
    intro t ht
    exact decide_eq_true (hf t ht)
  unfold retained
  simp only [hfil]
  rw [if_neg (by omega)]

theorem recordAll_append_singleton (c : Calculator) (init : List (Clock × Transaction))
    (s : Clock × Transaction) :
    recordAll c (init ++ [s]) =
      ((recordAll c init).1 ++ [(RecordTransaction s.1 (recordAll c init).2 s.2).1],
        (RecordTransaction s.1 (recordAll c init).2 s.2).2) := by
  induction init generalizing c with
  | nil => simp [recordAll]
  | cons s0 rest ih => simp [recordAll, ih]

/-- Outcomes of one processor that all stay inside the retention window, and fit
the retention cap, accumulate in the history in call order. -/
theorem recordAll_history (p : String) (steps : List (Clock × Transaction)) (c : Calculator)
    (hp : ∀ s ∈ steps, s.2.ProcessorID = p)
    (hold : ∀ t ∈ history c p, ∀ s ∈ steps, Fresh s.1.prune t)
    (hpair : steps.Pairwise (fun s1 s2 => Fresh s2.1.prune s1.2))
    (hself : ∀ s ∈ steps, Fresh s.1.prune s.2)
    (hlen : (history c p).length + steps.length ≤ WindowSize * 2) :
    history (recordAll c steps).2 p = history c p ++ steps.map Prod.snd := by
  induction steps generalizing c with
  | nil => simp [recordAll]
  | cons s rest ih =>
    have hsp : s.2.ProcessorID = p := hp s (List.mem_cons_self _ _)
    have hstep : history (RecordTransaction s.1 c s.2).2 p = history c p ++ [s.2] := by
      rw [RecordTransaction_history, hsp, if_pos rfl]
      apply retained_of_fresh
      · intro t ht
        rcases List.mem_append.mp ht with h1 | h1
        · exact hold t h1 s (List.mem_cons_self _ _)
        · rw [List.mem_singleton.mp h1]
          exact hself s (List.mem_cons_self _ _)
      · simp only [List.length_append, List.length_cons, List.length_nil] at hlen ⊢
        omega
    have hrec : history (recordAll c (s :: rest)).2 p =
        history (recordAll (RecordTransaction s.1 c s.2).2 rest).2 p := rfl
    rw [hrec, ih (RecordTransaction s.1 c s.2).2 (fun x hx => hp x (List.mem_cons_of_mem _ hx))
      ?_ (List.Pairwise.of_cons hpair) (fun x hx => hself x (List.mem_cons_of_mem _ hx)) ?_,
      hstep]
    · simp
    · intro t ht x hx
      rw [hstep] at ht
      rcases List.mem_append.mp ht with h1 | h1
      · exact hold t h1 x (List.mem_cons_of_mem _ hx)
      · rw [List.mem_singleton.mp h1]
        exact List.rel_of_pairwise_cons hpair hx
    · rw [hstep]
      simp only [List.length_append, List.length_cons, List.length_nil] at hlen ⊢
      omega

end health

namespace sort

theorem sinkLeft_perm {α : Type} (less : α → α → Bool) (x : α) (acc : List α) :
    (sinkLeft less x acc).Perm (x :: acc) := by
  induction acc with
  | nil => simp [sinkLeft]
  | cons y rev ih =>
    unfold sinkLeft
    split
    · exact ((List.Perm.cons y ih).trans (List.Perm.swap x y rev))
    · exact List.Perm.refl _

theorem insertionSortAux_perm {α : Type} (less : α → α → Bool) (l acc : List α) :
    (insertionSortAux less acc l).Perm (acc ++ l) := by
  induction l generalizing acc with
  | nil => simp [insertionSortAux]
  | cons x rest ih =>
    unfold insertionSortAux
    refine (ih (sinkLeft less x acc)).trans ?_
    refine (List.Perm.append_right rest (sinkLeft_perm less x acc)).trans ?_
    have hmid : (x :: (acc ++ rest)).Perm (acc ++ x :: rest) := List.perm_middle.symm
    simpa using hmid

theorem sinkLeft_pairwise {α : Type} (less : α → α → Bool)
    (hasym : ∀ a b, less a b = true → less b a = false)
    (hneg : ∀ a b c, less a b = false → less b c = false → less a c = false)
    (x : α) (acc : List α) (hacc : acc.Pairwise (fun a b => less a b = false)) :
    (sinkLeft less x acc).Pairwise (fun a b => less a b = false) := by
  induction acc with
  | nil => simp [sinkLeft]
  | cons y rev ih =>
    have hy : ∀ w ∈ rev, less y w = false := fun w hw => List.rel_of_pairwise_cons hacc hw
    have hrev := List.Pairwise.of_cons hacc
    unfold sinkLeft
    by_cases hxy : less x y = true
    · rw [if_pos hxy]
      refine List.Pairwise.cons ?_ (ih hrev)
      intro w hw
      rcases List.mem_cons.mp ((sinkLeft_perm less x rev).mem_iff.mp hw) with h1 | h1
      · rw [h1]
        exact hasym x y hxy
      · exact hy w h1
    · rw [if_neg hxy]
      have hxy0 : less x y = false := by simpa using hxy
      refine List.Pairwise.cons ?_ hacc
      intro w hw
      rcases List.mem_cons.mp hw with h1 | h1
      · rw [h1]
        exact hxy0
      · exact hneg x y w hxy0 (hy w h1)

theorem insertionSortAux_sorted {α : Type} (less : α → α → Bool)
    (hasym : ∀ a b, less a b = true → less b a = false)
    (hneg : ∀ a b c, less a b = false → less b c = false → less a c = false)
    (l acc : List α) (hacc : acc.Pairwise (fun a b => less a b = false)) :
    (insertionSortAux less acc l).Pairwise (fun a b => less b a = false) := by
  induction l generalizing acc with
  | nil =>
    unfold insertionSortAux
    rw [List.pairwise_reverse]
    exact hacc
  | cons x rest ih =>
    unfold insertionSortAux
    exact ih _ (sinkLeft_pairwise less hasym hneg x acc hacc)

/-- Insertion sort meets the contract of `sort.Slice`. -/
theorem insertionSort_contract {α : Type} :
    SliceContract (insertionSort : (α → α → Bool) → List α → List α) where
  perm := fun less l => by
    simpa [insertionSort] using insertionSortAux_perm less l []
  sorted := fun less l hasym hneg =>
    insertionSortAux_sorted less hasym hneg l [] List.Pairwise.nil

end sort

namespace routing

open domain

theorem supportsMethod_iff (p : Processor) (method : PaymentMethod) :
    supportsMethod p method = true ↔ method ∈ p.PaymentMethods := by
  unfold supportsMethod
  rw [List.any_eq_true]
  constructor
  · rintro ⟨m, hm, hd⟩
    have : m = method := by simpa using hd
    rw [← this]
    exact hm
  · intro h
    exact ⟨method, h, by simp⟩

theorem supportsCountry_iff (p : Processor) (country : Country) :
    supportsCountry p country = true ↔ country ∈ p.Countries := by
  unfold supportsCountry
  rw [List.any_eq_true]
  constructor
  · rintro ⟨m, hm, hd⟩
    have : m = country := by simpa using hd
    rw [← this]
    exact hm
  · intro h
    exact ⟨country, h, by simp⟩

theorem scoreLess_asymm (a b : scored) (h : scoreLess a b = true) : scoreLess b a = false := by
  unfold scoreLess at h ⊢
  have h1 : a.score > b.score := by simpa using h
  simp only [decide_eq_false_iff_not, not_lt, gt_iff_lt]
  exact le_of_lt h1

theorem scoreLess_negTrans (a b c : scored) (h1 : scoreLess a b = false)
    (h2 : scoreLess b c = false) : scoreLess a c = false := by
  unfold scoreLess at h1 h2 ⊢
  simp only [decide_eq_false_iff_not, not_lt, gt_iff_lt] at h1 h2 ⊢
  exact le_trans h1 h2

theorem length_buildRankings (i : Nat) (l : List scored) :
    (buildRankings i l).length = l.length := by
  induction l generalizing i with
  | nil => simp [buildRankings]
  | cons s rest ih => simp [buildRankings, ih]

theorem map_processorID_buildRankings (i : Nat) (l : List scored) :
    (buildRankings i l).map (fun r => r.ProcessorID) = l.map (fun s => s.processor.ID) := by
  induction l generalizing i with
  | nil => simp [buildRankings]
  | cons s rest ih => simp [buildRankings, ih]

/-- The entry built at position `k` of the loop started at index `i`. -/
theorem getElem?_buildRankings (i : Nat) (l : List scored) (k : Nat) :
    (buildRankings i l)[k]? =
      (l[k]?).map (fun s =>
        { ProcessorID := s.processor.ID, Rank := ((i + k : Nat) : Int) + 1,
          Status := s.health.Status, AuthorizationRate := s.health.AuthorizationRate,
          Recommended := decide (i + k = 0) && decide (s.health.Status ≠ StatusDown),
          Reason := reasonForRank s.health ((i + k : Nat) : Int)
            (decide (i + k = 0) && decide (s.health.Status ≠ StatusDown)) }) := by
  induction l generalizing i k with
  | nil => simp [buildRankings]
  | cons s rest ih =>
    cases k with
    | zero => simp [buildRankings]
    | succ k =>
      simp only [buildRankings, List.getElem?_cons_succ]
      rw [ih (i + 1) k]
      have : i + 1 + k = i + (k + 1) := by omega
      rw [this]

/-- Every entry is built from a `scored` element at some position. -/
theorem mem_buildRankings (l : List scored) (r : ProcessorRank) (hr : r ∈ buildRankings 0 l) :
    ∃ (k : Nat) (s : scored), l[k]? = some s ∧ r.ProcessorID = s.processor.ID ∧
      r.Rank = (k : Int) + 1 ∧
      r.Status = s.health.Status ∧ r.AuthorizationRate = s.health.AuthorizationRate ∧
      r.Recommended = (decide (k = 0) && decide (s.health.Status ≠ StatusDown)) := by
  obtain ⟨k, hk⟩ := List.getElem?_of_mem hr
  rw [getElem?_buildRankings] at hk
  cases hl : l[k]? with
  | none => rw [hl] at hk; simp at hk
  | some s =>
    rw [hl] at hk
    simp only [Option.map_some', Option.some.injEq, zero_add] at hk
    refine ⟨k, s, hl, ?_⟩
    rw [← hk]
    simp

theorem mem_scoreAll (now : Time) (e : Engine) (ps : List Processor) (s : scored)
    (hs : s ∈ scoreAll now e ps) :
    s.processor ∈ ps ∧ s.health = health.GetHealth now e.calculator s.processor.ID ∧
      s.score = calculateScore s.health := by
  unfold scoreAll at hs
  obtain ⟨p, hp, rfl⟩ := List.mem_map.mp hs
  exact ⟨hp, rfl, rfl⟩

/-- The sorted `scores` slice inside `rankProcessors`. -/
theorem sorted_scores (Slice : Sorter) (hS : sort.SliceContract Slice) (l : List scored) :
    (Slice scoreLess l).Pairwise (fun a b => a.score ≥ b.score) := by
  refine (hS.sorted scoreLess l scoreLess_asymm scoreLess_negTrans).imp ?_
  intro a b h
  unfold scoreLess at h
  simpa using h

theorem rankProcessors_eq (Slice : Sorter) (hS : sort.SliceContract Slice) (now : Time)
    (e : Engine) (ps : List Processor) :
    rankProcessors Slice now e ps = buildRankings 0 (Slice scoreLess (scoreAll now e ps)) := by
  unfold rankProcessors
  split
  · rename_i h
    have hnil : ps = [] := List.length_eq_zero.mp h
    subst hnil
    have hp := hS.perm scoreLess (scoreAll now e [])
    have : Slice scoreLess (scoreAll now e []) = [] := by
      simpa [scoreAll] using hp
    rw [this]
    rfl
  · rfl

theorem pairwise_getElem? {α : Type} {R : α → α → Prop} (l : List α) (hp : l.Pairwise R)
    (i j : Nat) (a b : α) (hi : l[i]? = some a) (hj : l[j]? = some b) (hij : i < j) :
    R a b := by
  obtain ⟨h1, rfl⟩ := List.getElem?_eq_some_iff.mp hi
  obtain ⟨h2, rfl⟩ := List.getElem?_eq_some_iff.mp hj
  exact List.pairwise_iff_getElem.mp hp i j h1 h2 hij

/-- A Down snapshot scores at most the confidence bonus. -/
theorem calculateScore_down_le (h : ProcessorHealth) (hd : h.Status = StatusDown) :
    calculateScore h ≤ 5 := by
  unfold calculateScore
  simp only [hd, if_true]
  split <;> norm_num

/-- A snapshot that is neither Down nor Degraded scores at least 100 times its rate. -/
theorem calculateScore_healthy_ge (h : ProcessorHealth) (hh : h.Status = StatusHealthy) :
    h.AuthorizationRate * 100 ≤ calculateScore h := by
  unfold calculateScore
  have h1 : ¬ (h.Status = StatusDown) := by rw [hh]; decide
  have h2 : ¬ (h.Status = StatusDegraded) := by rw [hh]; decide
  simp only [h1, h2, if_false]
  split <;> linarith

/-- Entries of the recommendation, traced back to the sorted `scores` slice. -/
theorem mem_recommend (Slice : Sorter) (hS : sort.SliceContract Slice) (now : Time)
    (e : Engine) (method : PaymentMethod) (country : Country) (amount : ℚ)
    (r : ProcessorRank)
    (hr : r ∈ (Recommend Slice now e method country amount).Recommendations) :
    ∃ (k : Nat) (s : scored),
      (Slice scoreLess (scoreAll now e (findCandidates e method country)))[k]? = some s ∧
      r.ProcessorID = s.processor.ID ∧ r.Rank = (k : Int) + 1 ∧
      r.Status = s.health.Status ∧ r.AuthorizationRate = s.health.AuthorizationRate ∧
      r.Recommended = (decide (k = 0) && decide (s.health.Status ≠ StatusDown)) ∧
      s.health = health.GetHealth now e.calculator s.processor.ID ∧
      s.score = calculateScore s.health := by
  have hr1 : r ∈ buildRankings 0
      (Slice scoreLess (scoreAll now e (findCandidates e method country))) := by
    rw [← rankProcessors_eq Slice hS]
    exact hr
  obtain ⟨k, s, hk, h1, h2, h3, h4, h5⟩ := mem_buildRankings _ r hr1
  have hmem : s ∈ scoreAll now e (findCandidates e method country) :=
    (hS.perm scoreLess _).mem_iff.mp (List.getElem?_mem hk)
  obtain ⟨_, h6, h7⟩ := mem_scoreAll now e _ s hmem
  exact ⟨k, s, hk, h1, h2, h3, h4, h5, h6, h7⟩

end routing

namespace routing

open domain

/-- Status and rate of an entry are those of the current health of its processor. -/
theorem entry_health (Slice : Sorter) (hS : sort.SliceContract Slice) (now : Time)
    (e : Engine) (method : PaymentMethod) (country : Country) (amount : ℚ)
    (r : ProcessorRank)
    (hr : r ∈ (Recommend Slice now e method country amount).Recommendations) :
    r.Status = (health.GetHealth now e.calculator r.ProcessorID).Status ∧
      r.AuthorizationRate =
        (health.GetHealth now e.calculator r.ProcessorID).AuthorizationRate := by
  obtain ⟨k, s, -, h1, -, h3, h4, -, h6, -⟩ :=
    mem_recommend Slice hS now e method country amount r hr
  rw [h1, ← h6]
  exact ⟨h3, h4⟩

/-- An entry whose processor scores strictly higher has the smaller rank. -/
theorem rank_lt_of_score_gt (Slice : Sorter) (hS : sort.SliceContract Slice) (now : Time)
    (e : Engine) (method : PaymentMethod) (country : Country) (amount : ℚ)
    (a b : ProcessorRank)
    (ha : a ∈ (Recommend Slice now e method country amount).Recommendations)
    (hb : b ∈ (Recommend Slice now e method country amount).Recommendations)
    (hsc : calculateScore (health.GetHealth now e.calculator a.ProcessorID) >
      calculateScore (health.GetHealth now e.calculator b.ProcessorID)) :
    a.Rank < b.Rank := by
  obtain ⟨k1, s1, hk1, hi1, hr1, -, -, -, hh1, hsc1⟩ :=
    mem_recommend Slice hS now e method country amount a ha
  obtain ⟨k2, s2, hk2, hi2, hr2, -, -, -, hh2, hsc2⟩ :=
    mem_recommend Slice hS now e method country amount b hb
  rw [hi1, ← hh1, ← hsc1, hi2, ← hh2, ← hsc2] at hsc
  rw [hr1, hr2]
  have hlt : k1 < k2 := by
    rcases Nat.lt_trichotomy k1 k2 with hlt | heq | hgt
    · exact hlt
    · subst heq
      rw [hk1] at hk2
      have : s1 = s2 := by simpa using hk2
      subst this
      exact absurd hsc (lt_irrefl _)
    · have := pairwise_getElem? _ (sorted_scores Slice hS _) k2 k1 s2 s1 hk2 hk1 hgt
      simp only [ge_iff_le] at this
      linarith
  omega

/-- The score of a Healthy snapshot. -/
theorem calculateScore_healthy (h : ProcessorHealth) (hh : h.Status = StatusHealthy) :
    calculateScore h =
      h.AuthorizationRate * 100 + (if h.TotalTransactions > 30 then 5 else 0) := by
  unfold calculateScore
  have h1 : ¬ (h.Status = StatusDown) := by rw [hh]; decide
  have h2 : ¬ (h.Status = StatusDegraded) := by rw [hh]; decide
  simp only [h1, h2, if_false]
  split <;> simp

end routing

namespace health

open domain

/-- Pruning keeps a fresh tail of at most `2 * WindowSize` entries at the end of the
history. -/
theorem retained_append_fresh (now : Time) (old new : List Transaction)
    (hf : ∀ t ∈ new, Fresh now t) (hl : new.length ≤ WindowSize * 2) :
    ∃ pre, retained now (old ++ new) = pre ++ new := by
  have hfil : new.filter (fun tx => decide (tx.Timestamp > now - TimeWindow)) = new := by
    rw [List.filter_eq_self]
    intro t ht
    exact decide_eq_true (hf t ht)
  unfold retained
  simp only [List.filter_append, hfil]
  split
  · rename_i hgt
    refine ⟨(old.filter (fun tx => decide (tx.Timestamp > now - TimeWindow))).drop
      ((old.filter (fun tx => decide (tx.Timestamp > now - TimeWindow)) ++ new).length -
        WindowSize * 2), ?_⟩
    apply List.drop_append_of_le_length
    simp only [List.length_append] at hgt ⊢
    omega
  · exact ⟨_, rfl⟩

/-- A run of outcomes for one processor, each inside the retention window at its own
call and at every later one, ends the history of that processor (whatever the state
before), as long as the run fits the retention cap. -/
theorem recordAll_history_suffix (p : String) (c : Calculator)
    (steps : List (Clock × Transaction))
    (hp : ∀ s ∈ steps, s.2.ProcessorID = p)
    (hpair : steps.Pairwise (fun s1 s2 => Fresh s2.1.prune s1.2))
    (hself : ∀ s ∈ steps, Fresh s.1.prune s.2)
    (hlen : steps.length ≤ WindowSize * 2) :
    ∃ pre, history (recordAll c steps).2 p = pre ++ steps.map Prod.snd := by
  induction steps using List.reverseRecOn with
  | nil => exact ⟨history c p, by simp [recordAll]⟩
  | append_singleton init s ih =>
    have hpw := List.pairwise_append.mp hpair
    have hlen1 : init.length + 1 ≤ WindowSize * 2 := by
      simpa using hlen
    obtain ⟨pre, hpre⟩ := ih (fun x hx => hp x (List.mem_append_left _ hx)) hpw.1
      (fun x hx => hself x (List.mem_append_left _ hx)) (by omega)
    have hsp : s.2.ProcessorID = p := hp s (by simp)
    rw [recordAll_append_singleton]
    simp only
    rw [RecordTransaction_history, hsp, if_pos rfl, hpre, List.append_assoc]
    have hmap : (init ++ [s]).map Prod.snd = init.map Prod.snd ++ [s.2] := by simp
    rw [hmap]
    apply retained_append_fresh
    · intro t ht
      rcases List.mem_append.mp ht with h1 | h1
      · obtain ⟨x, hx, rfl⟩ := List.mem_map.mp h1
        exact hpw.2.2 x hx s (by simp)
      · rw [List.mem_singleton.mp h1]
        exact hself s (by simp)
    · simp only [List.length_append, List.length_map, List.length_cons, List.length_nil]
      omega

/-- A history that ends with a full window is scored on that window. -/
theorem scoringWindow_append_full (pre win : List Transaction)
    (hw : win.length = WindowSize) : scoringWindow (pre ++ win) = win := by
  unfold scoringWindow
  split
  · apply List.drop_left'
    simp only [List.length_append]
    omega
  · rename_i hle
    have hpre : pre = [] := by
      apply List.length_eq_zero.mp
      simp only [List.length_append] at hle
      omega
    rw [hpre, List.nil_append]

end health

namespace health

open domain

theorem retained_eq_drop (now : Time) (txs : List Transaction) :
    retained now txs =
      (txs.filter (fun o => decide (o.Timestamp > now - TimeWindow))).drop
        ((txs.filter (fun o => decide (o.Timestamp > now - TimeWindow))).length -
          min 100 (txs.filter (fun o => decide (o.Timestamp > now - TimeWindow))).length) := by
  unfold retained
  simp only [WindowSize]
  split
  · rename_i h
    rw [Nat.min_eq_left (by omega)]
  · rename_i h
    rw [Nat.min_eq_right (by omega), Nat.sub_self, List.drop_zero]

theorem scoringWindow_eq_drop (txs : List Transaction) :
    scoringWindow txs = txs.drop (txs.length - min 50 txs.length) := by
  unfold scoringWindow
  simp only [WindowSize]
  split
  · rename_i h
    rw [Nat.min_eq_left (by omega)]
  · rename_i h
    rw [Nat.min_eq_right (by omega), Nat.sub_self, List.drop_zero]

/-- The snapshot returned by `RecordTransaction`, in terms of the history it leaves. -/
theorem RecordTransaction_fst (clk : Clock) (c : Calculator) (tx : Transaction) :
    (RecordTransaction clk c tx).1 =
      if history (RecordTransaction clk c tx).2 tx.ProcessorID = [] then
        { ProcessorID := tx.ProcessorID, Status := StatusHealthy, AuthorizationRate := 1,
          TotalTransactions := 0, SuccessCount := 0, FailureCount := 0, ErrorCount := 0,
          LastUpdated := clk.updated, StatusChangedAt := none, PreviousStatus := "" }
      else
        { ProcessorID := tx.ProcessorID,
          Status := windowStatus (history (RecordTransaction clk c tx).2 tx.ProcessorID),
          AuthorizationRate :=
            windowAuthRate (history (RecordTransaction clk c tx).2 tx.ProcessorID),
          TotalTransactions :=
            ((scoringWindow (history (RecordTransaction clk c tx).2 tx.ProcessorID)).length : Int),
          SuccessCount :=
            (tally (scoringWindow (history (RecordTransaction clk c tx).2 tx.ProcessorID))).approved,
          FailureCount :=
            (tally (scoringWindow (history (RecordTransaction clk c tx).2 tx.ProcessorID))).declined,
          ErrorCount :=
            (tally (scoringWindow (history (RecordTransaction clk c tx).2 tx.ProcessorID))).errors,
          LastUpdated := clk.updated,
          StatusChangedAt :=
            if windowStatus (history (RecordTransaction clk c tx).2 tx.ProcessorID) ≠
                  previousStatusOf c tx.ProcessorID ∧
                (c.processors.get? tx.ProcessorID).isSome then some clk.changed else none,
          PreviousStatus := previousStatusOf c tx.ProcessorID } := by
  have hh : history (RecordTransaction clk c tx).2 tx.ProcessorID =
      retained clk.prune (history c tx.ProcessorID ++ [tx]) := by
    rw [RecordTransaction_history, if_pos rfl]
  rw [hh]
  by_cases hnil : retained clk.prune (history c tx.ProcessorID ++ [tx]) = []
  · rw [if_pos hnil]
    exact RecordTransaction_fst_of_nil clk c tx hnil
  · rw [if_neg hnil]
    exact RecordTransaction_fst_of_ne_nil clk c tx hnil

/-- The window statistics are functions of the scoring window alone. -/
theorem window_congr (h1 h2 : List Transaction) (hw : scoringWindow h1 = scoringWindow h2) :
    windowStatus h1 = windowStatus h2 ∧ windowAuthRate h1 = windowAuthRate h2 ∧
      windowErrorRate h1 = windowErrorRate h2 := by
  unfold windowStatus windowAuthRate windowErrorRate
  rw [hw]
  exact ⟨rfl, rfl, rfl⟩

end health

namespace GoMap

theorem mem_keys_set {β : Type} (m : GoMap β) (k : String) (v : β) (k1 : String) :
    k1 ∈ (m.set k v).map Prod.fst ↔ k1 = k ∨ k1 ∈ m.map Prod.fst := by
  induction m with
  | nil => simp [set]
  | cons kv rest ih =>
    obtain ⟨k0, v0⟩ := kv
    by_cases h : k0 = k
    · subst h
      simp [set]
    · simp only [set, h, if_false, List.map_cons, List.mem_cons, ih]
      constructor
      · rintro (h1 | h1 | h1)
        · exact Or.inr (Or.inl h1)
        · exact Or.inl h1
        · exact Or.inr (Or.inr h1)
      · rintro (h1 | h1 | h1)
        · exact Or.inr (Or.inl h1)
        · exact Or.inl h1
        · exact Or.inr (Or.inr h1)

theorem nodup_keys_set {β : Type} (m : GoMap β) (k : String) (v : β)
    (hm : (m.map Prod.fst).Nodup) : ((m.set k v).map Prod.fst).Nodup := by
  induction m with
  | nil => simp [set]
  | cons kv rest ih =>
    obtain ⟨k0, v0⟩ := kv
    have hk0 : k0 ∉ rest.map Prod.fst := (List.nodup_cons.mp hm).1
    have hrest : (rest.map Prod.fst).Nodup := (List.nodup_cons.mp hm).2
    by_cases h : k0 = k
    · subst h
      simpa [set] using hm
    · simp only [set, h, if_false, List.map_cons]
      refine List.nodup_cons.mpr ⟨?_, ih hrest⟩
      intro hmem
      rcases (mem_keys_set rest k v k0).mp hmem with h1 | h1
      · exact h h1
      · exact hk0 h1

theorem mem_set {β : Type} (m : GoMap β) (k : String) (v : β) (kv : String × β)
    (h : kv ∈ m.set k v) : kv = (k, v) ∨ kv ∈ m := by
  induction m with
  | nil => simpa [set] using h
  | cons kv0 rest ih =>
    obtain ⟨k0, v0⟩ := kv0
    by_cases hk : k0 = k
    · simp only [set, hk, if_true, List.mem_cons] at h
      rcases h with h1 | h1
      · exact Or.inl h1
      · exact Or.inr (List.mem_cons_of_mem _ h1)
    · simp only [set, hk, if_false, List.mem_cons] at h
      rcases h with h1 | h1
      · exact Or.inr (by rw [h1]; exact List.mem_cons_self _ _)
      · rcases ih h1 with h2 | h2
        · exact Or.inl h2
        · exact Or.inr (List.mem_cons_of_mem _ h2)

end GoMap

namespace health

open domain

/-- In a well-formed snapshot map, after `m[k] = v` with `v` carrying id `k`, the
snapshots carrying id `k` are exactly `[v]`. -/
theorem values_set_filter (m : GoMap ProcessorHealth) (k : String) (v : ProcessorHealth)
    (hv : v.ProcessorID = k) (hnd : (m.map Prod.fst).Nodup)
    (hid : ∀ kv ∈ m, kv.2.ProcessorID = kv.1) :
    (m.set k v).values.filter (fun h => decide (h.ProcessorID = k)) = [v] := by
  induction m with
  | nil => simp [GoMap.set, GoMap.values, hv]
  | cons kv rest ih =>
    obtain ⟨k0, v0⟩ := kv
    have hk0 : k0 ∉ rest.map Prod.fst := (List.nodup_cons.mp hnd).1
    have hrest : (rest.map Prod.fst).Nodup := (List.nodup_cons.mp hnd).2
    have hv0 : v0.ProcessorID = k0 := hid (k0, v0) (List.mem_cons_self _ _)
    have hidr : ∀ kv ∈ rest, kv.2.ProcessorID = kv.1 :=
      fun kv hkv => hid kv (List.mem_cons_of_mem _ hkv)
    by_cases h : k0 = k
    · subst h
      have hnone : (rest.map Prod.snd).filter (fun h => decide (h.ProcessorID = k0)) = [] := by
        rw [List.filter_eq_nil_iff]
        intro x hx
        obtain ⟨kv, hkv, rfl⟩ := List.mem_map.mp hx
        have hne : kv.1 ≠ k0 := by
          intro heq
          exact hk0 (heq ▸ List.mem_map_of_mem Prod.fst hkv)
        simp [hidr kv hkv, hne]
      simp [GoMap.set, GoMap.values, hv, hnone]
    · have hne : ¬ (v0.ProcessorID = k) := by rw [hv0]; exact h
      have := ih hrest hidr
      simp only [GoMap.values] at this
      simp [GoMap.set, GoMap.values, h, hne, this]

theorem RecordTransaction_fst_processorID (clk : Clock) (c : Calculator) (tx : Transaction) :
    (RecordTransaction clk c tx).1.ProcessorID = tx.ProcessorID := by
  rw [RecordTransaction_fst]
  split <;> rfl

theorem wellFormed_new : WellFormed NewCalculator := by
  simp [WellFormed, NewCalculator]

theorem wellFormed_record (clk : Clock) (c : Calculator) (tx : Transaction)
    (hwf : WellFormed c) : WellFormed (RecordTransaction clk c tx).2 := by
  unfold WellFormed
  rw [RecordTransaction_processors]
  refine ⟨GoMap.nodup_keys_set _ _ _ hwf.1, ?_⟩
  intro kv hkv
  rcases GoMap.mem_set _ _ _ kv hkv with h1 | h1
  · rw [h1]
    exact RecordTransaction_fst_processorID clk c tx
  · exact hwf.2 kv h1

theorem wellFormed_recordAll (c : Calculator) (steps : List (Clock × Transaction))
    (hwf : WellFormed c) : WellFormed (recordAll c steps).2 := by
  induction steps generalizing c with
  | nil => exact hwf
  | cons s rest ih => exact ih _ (wellFormed_record s.1 c s.2 hwf)

/-- Recording outcomes of other processors leaves the stored snapshot of `id` alone. -/
theorem recordAll_processors_get? (id : String) (c : Calculator)
    (steps : List (Clock × Transaction)) (hne : ∀ s ∈ steps, s.2.ProcessorID ≠ id) :
    (recordAll c steps).2.processors.get? id = c.processors.get? id := by
  induction steps generalizing c with
  | nil => rfl
  | cons s rest ih =>
    have h1 : (recordAll c (s :: rest)).2 = (recordAll (RecordTransaction s.1 c s.2).2 rest).2 :=
      rfl
    rw [h1, ih _ (fun x hx => hne x (List.mem_cons_of_mem _ hx)), RecordTransaction_processors,
      GoMap.get?_set_ne _ _ _ _ (Ne.symm (hne s (List.mem_cons_self _ _)))]

end health

namespace health

open domain

/-- Every outcome falls in exactly one of the three buckets or is unrecognized. -/
theorem countP_buckets (l : List Transaction) :
    l.countP (fun o => decide (o.Result = ResultApproved)) +
        l.countP (fun o => decide (o.Result = ResultDeclined)) +
        l.countP (fun o => decide (o.Result = ResultError ∨ o.Result = ResultTimeout)) +
        l.countP (fun o => !recognized o.Result) = l.length := by
  induction l with
  | nil => simp
  | cons tx rest ih =>
    simp only [List.countP_cons, List.length_cons]
    by_cases h1 : tx.Result = "approved"
    · simp [recognized, ResultApproved, ResultDeclined, ResultError, ResultTimeout, h1] at ih ⊢
      omega
    · by_cases h2 : tx.Result = "declined"
      · simp [recognized, ResultApproved, ResultDeclined, ResultError, ResultTimeout, h2] at ih ⊢
        omega
      · by_cases h3 : tx.Result = "error"
        · simp [recognized, ResultApproved, ResultDeclined, ResultError, ResultTimeout, h3] at ih ⊢
          omega
        · by_cases h4 : tx.Result = "timeout"
          · simp [recognized, ResultApproved, ResultDeclined, ResultError, ResultTimeout, h4] at ih ⊢
            omega
          · simp [recognized, ResultApproved, ResultDeclined, ResultError, ResultTimeout,
              h1, h2, h3, h4] at ih ⊢
            omega

end health

namespace GoMap

theorem set_set {β : Type} (m : GoMap β) (k : String) (v w : β) :
    (m.set k v).set k w = m.set k w := by
  induction m with
  | nil => simp [set]
  | cons kv rest ih =>
    obtain ⟨k0, v0⟩ := kv
    by_cases h : k0 = k
    · simp [set, h]
    · simp [set, h, ih]

theorem mem_of_get? {β : Type} (m : GoMap β) (k : String) (v : β) (h : m.get? k = some v) :
    (k, v) ∈ m := by
  induction m with
  | nil => simp [get?] at h
  | cons kv rest ih =>
    obtain ⟨k0, v0⟩ := kv
    by_cases hk : k0 = k
    · subst hk
      simp only [get?, if_true, Option.some.injEq] at h
      rw [h]
      exact List.mem_cons_self _ _
    · simp only [get?, hk, if_false] at h
      exact List.mem_cons_of_mem _ (ih h)

end GoMap

namespace health

open domain

theorem step_log_extends (c : Calculator) (op : Op) :
    c.transitions <+: (step c op).transitions := by
  cases op with
  | record clk tx =>
    simp only [step]
    rw [RecordTransaction_transitions]
    split
    · exact List.prefix_append _ _
    · exact List.prefix_refl _
  | getHealth now id => exact List.prefix_refl _
  | getAllHealth => exact List.prefix_refl _
  | getTransitions since => exact List.prefix_refl _
  | getRecentTransactions id limit => exact List.prefix_refl _

theorem run_log_extends (c : Calculator) (ops : List Op) :
    c.transitions <+: (run c ops).transitions := by
  induction ops generalizing c with
  | nil => exact List.prefix_refl _
  | cons op rest ih =>
    exact (step_log_extends c op).trans (ih (step c op))

theorem run_health_queries (c : Calculator) (ops : List Op)
    (hq : ∀ op ∈ ops, op.isHealthQuery = true) : run c ops = c := by
  induction ops generalizing c with
  | nil => rfl
  | cons op rest ih =>
    have hop := hq op (List.mem_cons_self _ _)
    have hstep : step c op = c := by
      cases op <;> simp [Op.isHealthQuery] at hop <;> rfl
    show run (step c op) rest = c
    rw [hstep]
    exact ih c (fun x hx => hq x (List.mem_cons_of_mem _ hx))

end health

namespace health

open domain

theorem authorizationRate_bounds (t : Tally) (ha : 0 ≤ t.approved) (hd : 0 ≤ t.declined) :
    0 ≤ authorizationRate t ∧ authorizationRate t ≤ 1 := by
  unfold authorizationRate
  simp only
  split
  · rename_i hpos
    have hposQ : (0 : ℚ) < ((t.approved + t.declined : Int) : ℚ) := by exact_mod_cast hpos
    have haQ : (0 : ℚ) ≤ (t.approved : ℚ) := by exact_mod_cast ha
    have hdQ : (0 : ℚ) ≤ (t.declined : ℚ) := by exact_mod_cast hd
    constructor
    · exact div_nonneg haQ (le_of_lt hposQ)
    · rw [div_le_one hposQ]
      push_cast
      linarith
  · split <;> norm_num

/-- The rate of every snapshot `RecordTransaction` returns lies in `[0, 1]`. -/
theorem RecordTransaction_rate_bounds (clk : Clock) (c : Calculator) (tx : Transaction) :
    0 ≤ (RecordTransaction clk c tx).1.AuthorizationRate ∧
      (RecordTransaction clk c tx).1.AuthorizationRate ≤ 1 := by
  rw [RecordTransaction_fst]
  split
  · norm_num
  · simp only
    unfold windowAuthRate
    apply authorizationRate_bounds
    · rw [tally_eq]
      exact Int.ofNat_nonneg _
    · rw [tally_eq]
      exact Int.ofNat_nonneg _

/-- Every stored snapshot of a state reached from a fresh calculator has its rate in
`[0, 1]`. -/
theorem run_stored_rate_bounds (c : Calculator) (ops : List Op)
    (hc : ∀ kv ∈ c.processors, 0 ≤ kv.2.AuthorizationRate ∧ kv.2.AuthorizationRate ≤ 1) :
    ∀ kv ∈ (run c ops).processors,
      0 ≤ kv.2.AuthorizationRate ∧ kv.2.AuthorizationRate ≤ 1 := by
  induction ops generalizing c with
  | nil => exact hc
  | cons op rest ih =>
    apply ih (step c op)
    cases op with
    | record clk tx =>
      intro kv hkv
      simp only [step] at hkv
      rw [RecordTransaction_processors] at hkv
      rcases GoMap.mem_set _ _ _ kv hkv with h1 | h1
      · rw [h1]
        exact RecordTransaction_rate_bounds clk c tx
      · exact hc kv h1
    | getHealth now id => exact hc
    | getAllHealth => exact hc
    | getTransitions since => exact hc
    | getRecentTransactions id limit => exact hc

end health

namespace routing

open domain

/-- The score of a Degraded snapshot. -/
theorem calculateScore_degraded (h : ProcessorHealth) (hh : h.Status = StatusDegraded) :
    calculateScore h =
      h.AuthorizationRate * 50 + (if h.TotalTransactions > 30 then 5 else 0) := by
  unfold calculateScore
  have h1 : ¬ (h.Status = StatusDown) := by rw [hh]; decide
  have hhalf : h.AuthorizationRate * 100 * 0.5 = h.AuthorizationRate * 50 := by
    norm_num
    ring
  simp only [if_neg h1, if_pos hh, hhalf]
  split <;> simp

/-- No entry built at a later index than 0 is recommended. -/
theorem countP_recommended_buildRankings (l : List scored) (i : Nat) (hi : 0 < i) :
    (buildRankings i l).countP (fun r => r.Recommended) = 0 := by
  induction l generalizing i with
  | nil => simp [buildRankings]
  | cons s rest ih =>
    have hne : ¬ (i = 0) := by omega
    simp only [buildRankings, List.countP_cons, hne, decide_False, Bool.false_and]
    rw [ih (i + 1) (by omega)]
    simp

end routing

namespace health

open domain

/-- Pruning the history of `p` leaves the map entry of every other processor alone. -/
theorem pruneTransactions_transactions_get? (now : Time) (c : Calculator) (p q : String)
    (hq : q ≠ p) :
    (pruneTransactions now c p).transactions.get? q = c.transactions.get? q := by
  unfold pruneTransactions
  by_cases h0 : (history c p).length = 0
  · simp [h0]
  · simp only [h0, if_false]
    exact GoMap.get?_set_ne _ _ _ _ hq

/-- `RecordTransaction` leaves the history entry of every other processor alone. -/
theorem RecordTransaction_transactions_get? (clk : Clock) (c : Calculator)
    (tx : Transaction) (q : String) (hq : q ≠ tx.ProcessorID) :
    (RecordTransaction clk c tx).2.transactions.get? q = c.transactions.get? q := by
  rw [RecordTransaction_eq, calculateHealth_transactions]
  unfold pruned
  rw [pruneTransactions_transactions_get? _ _ _ _ hq]
  exact GoMap.get?_set_ne _ _ _ _ hq

end health

/-! ## Claims -/

/-- C1: `determineStatus` is the priority table.  For every authorization rate `a`,
error rate `e` and window total `n` the result is Healthy when `n < 10`; otherwise
Down when `e > 0.50`; otherwise Degraded when `e > 0.30`; otherwise Down when
`a < 0.30`; otherwise Degraded when `a < 0.65`; otherwise Healthy.  The three further
conjuncts are the boundary cases: `a = 0.65` is not below the healthy threshold,
`a = 0.30` is not below the degraded floor, and `e = 0.50` is not a high error rate
(it falls to the elevated-error rule). -/
theorem health.determineStatus_priority_table (a e : ℚ) (n : Int) :
    (health.determineStatus a e n =
      if n < 10 then domain.StatusHealthy
      else if e > 0.50 then domain.StatusDown
      else if e > 0.30 then domain.StatusDegraded
      else if a < 0.30 then domain.StatusDown
      else if a < 0.65 then domain.StatusDegraded
      else domain.StatusHealthy) ∧
    (health.determineStatus 0.65 e n =
      if n < 10 then domain.StatusHealthy
      else if e > 0.50 then domain.StatusDown
      else if e > 0.30 then domain.StatusDegraded
      else domain.StatusHealthy) ∧
    (health.determineStatus 0.30 e n =
      if n < 10 then domain.StatusHealthy
      else if e > 0.50 then domain.StatusDown
      else if e > 0.30 then domain.StatusDegraded
      else domain.StatusDegraded) ∧
    (health.determineStatus a 0.50 n =
      if n < 10 then domain.StatusHealthy else domain.StatusDegraded) := by
  refine ⟨?_, ?_, ?_, ?_⟩
  · rw [health.determineStatus_eq]; norm_num
  · rw [health.determineStatus_eq]; norm_num
  · rw [health.determineStatus_eq]; norm_num
  · rw [health.determineStatus_eq]; norm_num

/-- C2: starting from a fresh calculator, record (in any order) `a` approved and `d`
declined outcomes for one processor, with `10 ≤ a + d ≤ 50` and every outcome inside
the retention window at the Record call that adds it and at every later one.  Then the
snapshot returned by the last call has authorization rate exactly `a / (a + d)`, and
its status is Healthy if that rate is at least 0.65, Degraded if it is at least 0.30
and below 0.65, and Down if it is below 0.30. -/
theorem health.record_approved_declined_rate_status (p : String)
    (steps : List (health.Clock × domain.Transaction)) (a d : Nat)
    (hp : ∀ s ∈ steps, s.2.ProcessorID = p)
    (hres : ∀ s ∈ steps,
      s.2.Result = domain.ResultApproved ∨ s.2.Result = domain.ResultDeclined)
    (ha : steps.countP (fun s => decide (s.2.Result = domain.ResultApproved)) = a)
    (hd : steps.countP (fun s => decide (s.2.Result = domain.ResultDeclined)) = d)
    (h10 : 10 ≤ a + d) (h50 : a + d ≤ 50)
    (hpair : steps.Pairwise (fun s1 s2 => health.Fresh s2.1.prune s1.2))
    (hself : ∀ s ∈ steps, health.Fresh s.1.prune s.2) :
    ∃ h, (health.recordAll health.NewCalculator steps).1.getLast? = some h ∧
      h.AuthorizationRate = (a : ℚ) / ((a : ℚ) + (d : ℚ)) ∧
      h.Status =
        if (a : ℚ) / ((a : ℚ) + (d : ℚ)) ≥ 0.65 then domain.StatusHealthy
        else if (a : ℚ) / ((a : ℚ) + (d : ℚ)) ≥ 0.30 then domain.StatusDegraded
        else domain.StatusDown := by
  open health domain in
  -- every outcome is approved or declined, so the sequence has `a + d` entries
  have hcongr : steps.countP (fun s => !decide (s.2.Result = ResultApproved)) =
      steps.countP (fun s => decide (s.2.Result = ResultDeclined)) := by
    apply List.countP_congr
    intro s hs
    rcases hres s hs with h1 | h1 <;> simp [h1, ResultApproved, ResultDeclined]
  have hlen : steps.length = a + d := by
    rw [List.length_eq_countP_add_countP (fun s => decide (s.2.Result = ResultApproved)) steps]
    simp only [Bool.not_eq_true, Bool.decide_eq_false] at hcongr ⊢
    rw [ha, hcongr, hd]
  rcases List.eq_nil_or_concat steps with hnil | ⟨init, s, hs⟩
  · rw [hnil] at hlen
    simp at hlen
    omega
  rw [List.concat_eq_append] at hs
  subst hs
  have hinit : history (recordAll NewCalculator init).2 p = init.map Prod.snd := by
    have := recordAll_history p init NewCalculator
      (fun x hx => hp x (List.mem_append_left _ hx))
      (by intro t ht; simp [history, NewCalculator, GoMap.get?] at ht)
      (List.pairwise_append.mp hpair).1
      (fun x hx => hself x (List.mem_append_left _ hx))
      (by
        simp only [List.length_append, List.length_cons, List.length_nil] at hlen
        simp [history, NewCalculator, GoMap.get?, WindowSize]
        omega)
    simpa [history, NewCalculator, GoMap.get?] using this
  have hsp : s.2.ProcessorID = p := hp s (by simp)
  have hT : retained s.1.prune (history (recordAll NewCalculator init).2 s.2.ProcessorID ++ [s.2]) =
      (init ++ [s]).map Prod.snd := by
    rw [hsp, hinit, retained_of_fresh]
    · simp
    · intro t ht
      rcases List.mem_append.mp ht with h1 | h1
      · obtain ⟨x, hx, rfl⟩ := List.mem_map.mp h1
        exact (List.pairwise_append.mp hpair).2.2 x hx s (by simp)
      · rw [List.mem_singleton.mp h1]
        exact hself s (by simp)
    · simp only [List.length_append, List.length_cons, List.length_nil, List.length_map,
        WindowSize] at hlen ⊢
      omega
  have hTlen : ((init ++ [s]).map Prod.snd).length = a + d := by
    rw [List.length_map, hlen]
  have hTne : (init ++ [s]).map Prod.snd ≠ [] := by simp
  have hwin : scoringWindow ((init ++ [s]).map Prod.snd) = (init ++ [s]).map Prod.snd :=
    scoringWindow_of_le _ (by rw [hTlen, WindowSize]; exact h50)
  have hca : ((init ++ [s]).map Prod.snd).countP
      (fun tx => decide (tx.Result = ResultApproved)) = a := by
    rw [List.countP_map]; exact ha
  have hcd : ((init ++ [s]).map Prod.snd).countP
      (fun tx => decide (tx.Result = ResultDeclined)) = d := by
    rw [List.countP_map]; exact hd
  have hce : ((init ++ [s]).map Prod.snd).countP
      (fun tx => decide (tx.Result = ResultError ∨ tx.Result = ResultTimeout)) = 0 := by
    rw [List.countP_eq_zero]
    intro tx htx
    obtain ⟨x, hx, rfl⟩ := List.mem_map.mp htx
    rcases hres x hx with h1 | h1 <;>
      simp [h1, ResultApproved, ResultDeclined, ResultError, ResultTimeout]
  have htally : tally ((init ++ [s]).map Prod.snd) =
      { approved := (a : Int), declined := (d : Int), errors := 0 } := by
    rw [tally_eq, hca, hcd, hce]
    rfl
  have hpos : (0 : ℚ) < (a : ℚ) + (d : ℚ) := by
    have : (0 : ℚ) < ((a + d : Nat) : ℚ) := by exact_mod_cast (by omega : 0 < a + d)
    simpa using this
  have hrate : windowAuthRate ((init ++ [s]).map Prod.snd) = (a : ℚ) / ((a : ℚ) + (d : ℚ)) := by
    unfold windowAuthRate
    rw [hwin, htally]
    unfold authorizationRate
    have hposI : (a : Int) + (d : Int) > 0 := by omega
    simp only [hposI, if_true]
    push_cast
    rfl
  have herr : windowErrorRate ((init ++ [s]).map Prod.snd) = 0 := by
    unfold windowErrorRate
    rw [hwin, htally]
    simp
  refine ⟨(RecordTransaction s.1 (recordAll NewCalculator init).2 s.2).1, ?_, ?_, ?_⟩
  · rw [recordAll_append_singleton]
    simp
  · rw [RecordTransaction_fst_of_ne_nil _ _ _ (by rw [hT]; exact hTne), hT]
    exact hrate
  · rw [RecordTransaction_fst_of_ne_nil _ _ _ (by rw [hT]; exact hTne), hT]
    show windowStatus _ = _
    unfold windowStatus
    rw [hrate, herr, hwin, hTlen, determineStatus_eq]
    have hn : ¬ (((a + d : Nat) : Int) < 10) := by omega
    rw [if_neg hn]
    norm_num
    by_cases h1 : (a : ℚ) / ((a : ℚ) + (d : ℚ)) < 3 / 10
    · have h2 : ¬ (13 / 20 ≤ (a : ℚ) / ((a : ℚ) + (d : ℚ))) := by
        intro h; linarith
      have h3 : ¬ (3 / 10 ≤ (a : ℚ) / ((a : ℚ) + (d : ℚ))) := by
        intro h; linarith
      simp [h1, h2, h3]
    · by_cases h4 : (a : ℚ) / ((a : ℚ) + (d : ℚ)) < 13 / 20
      · have h2 : ¬ (13 / 20 ≤ (a : ℚ) / ((a : ℚ) + (d : ℚ))) := by
          intro h; linarith
        have h3 : (3 / 10 ≤ (a : ℚ) / ((a : ℚ) + (d : ℚ))) := by
          linarith [not_lt.mp h1]
        simp [h1, h2, h3, h4]
      · have h2 : (13 / 20 ≤ (a : ℚ) / ((a : ℚ) + (d : ℚ))) := not_lt.mp h4
        simp [h1, h2, h4]

/-- C2 at 40 approved followed by 10 declined: rate 40/50, Healthy. -/
theorem health.record_approved_declined_rate_status_witness :
    ∃ h, (health.recordAll health.NewCalculator
        (health.burst "processor_a" domain.ResultApproved 40 ++
          health.burst "processor_a" domain.ResultDeclined 10)).1.getLast? = some h ∧
      h.AuthorizationRate = ((40 : Nat) : ℚ) / (((40 : Nat) : ℚ) + ((10 : Nat) : ℚ)) ∧
      h.Status =
        if ((40 : Nat) : ℚ) / (((40 : Nat) : ℚ) + ((10 : Nat) : ℚ)) ≥ 0.65 then
          domain.StatusHealthy
        else if ((40 : Nat) : ℚ) / (((40 : Nat) : ℚ) + ((10 : Nat) : ℚ)) ≥ 0.30 then
          domain.StatusDegraded
        else domain.StatusDown :=
  health.record_approved_declined_rate_status "processor_a"
    (health.burst "processor_a" domain.ResultApproved 40 ++
      health.burst "processor_a" domain.ResultDeclined 10) 40 10
    (by decide) (by decide) (by decide) (by decide) (by decide) (by decide)
    (by decide) (by decide)

/-- C3: whenever the snapshot returned by `RecordTransaction` has a window total of at
least 10 and an error count (error plus timeout outcomes) strictly above half of that
total, its status is Down, whatever the authorization rate. -/
theorem health.record_high_error_rate_down (clk : health.Clock) (c : health.Calculator)
    (tx : domain.Transaction)
    (h10 : 10 ≤ (health.RecordTransaction clk c tx).1.TotalTransactions)
    (herr : (health.RecordTransaction clk c tx).1.TotalTransactions <
      2 * (health.RecordTransaction clk c tx).1.ErrorCount) :
    (health.RecordTransaction clk c tx).1.Status = domain.StatusDown := by
  open health domain in
  by_cases hnil : retained clk.prune (history c tx.ProcessorID ++ [tx]) = []
  · rw [RecordTransaction_fst_of_nil _ _ _ hnil] at h10
    simp at h10
  · rw [RecordTransaction_fst_of_ne_nil _ _ _ hnil] at h10 herr ⊢
    simp only at h10 herr ⊢
    unfold windowStatus windowErrorRate
    rw [determineStatus_eq, if_neg (by omega)]
    have hlen : (0 : ℚ) <
        (((scoringWindow (retained clk.prune (history c tx.ProcessorID ++ [tx]))).length : Int) : ℚ) := by
      exact_mod_cast (by omega : (0 : Int) <
        ((scoringWindow (retained clk.prune (history c tx.ProcessorID ++ [tx]))).length : Int))
    have herrQ : (((scoringWindow (retained clk.prune (history c tx.ProcessorID ++ [tx]))).length : Int) : ℚ) <
        2 * ((tally (scoringWindow (retained clk.prune (history c tx.ProcessorID ++ [tx])))).errors : ℚ) := by
      exact_mod_cast herr
    rw [if_pos]
    rw [gt_iff_lt, lt_div_iff₀ hlen]
    linarith

/-- C3 at 20 approved followed by 30 error outcomes: the last snapshot is Down
although its authorization rate is 1. -/
theorem health.record_high_error_rate_down_witness :
    (10 ≤ (health.RecordTransaction (health.clockAt 0)
        (health.recordAll health.NewCalculator
          (health.burst "processor_a" domain.ResultApproved 20 ++
            health.burst "processor_a" domain.ResultError 29)).2
        (health.createTx "processor_a" domain.ResultError 0)).1.TotalTransactions) ∧
    (health.RecordTransaction (health.clockAt 0)
        (health.recordAll health.NewCalculator
          (health.burst "processor_a" domain.ResultApproved 20 ++
            health.burst "processor_a" domain.ResultError 29)).2
        (health.createTx "processor_a" domain.ResultError 0)).1.AuthorizationRate = 1 ∧
    (health.RecordTransaction (health.clockAt 0)
        (health.recordAll health.NewCalculator
          (health.burst "processor_a" domain.ResultApproved 20 ++
            health.burst "processor_a" domain.ResultError 29)).2
        (health.createTx "processor_a" domain.ResultError 0)).1.Status = domain.StatusDown :=
  ⟨by decide!, by decide!,
    health.record_high_error_rate_down (health.clockAt 0)
      (health.recordAll health.NewCalculator
        (health.burst "processor_a" domain.ResultApproved 20 ++
          health.burst "processor_a" domain.ResultError 29)).2
      (health.createTx "processor_a" domain.ResultError 0) (by decide!) (by decide!)⟩

/-- C4: in every snapshot returned by `RecordTransaction`, with approved count `A`,
declined count `D` and error count `E` over the scoring window, the authorization
rate is `A / (A + D)` when `A + D > 0`; it is 0 when `A + D = 0` and `E ≥ 1`; and it
is 1 when the window is empty (total 0). -/
theorem health.record_authorization_rate (clk : health.Clock) (c : health.Calculator)
    (tx : domain.Transaction) :
    ((health.RecordTransaction clk c tx).1.SuccessCount +
        (health.RecordTransaction clk c tx).1.FailureCount > 0 →
      (health.RecordTransaction clk c tx).1.AuthorizationRate =
        ((health.RecordTransaction clk c tx).1.SuccessCount : ℚ) /
          (((health.RecordTransaction clk c tx).1.SuccessCount : ℚ) +
            ((health.RecordTransaction clk c tx).1.FailureCount : ℚ))) ∧
    ((health.RecordTransaction clk c tx).1.SuccessCount +
        (health.RecordTransaction clk c tx).1.FailureCount = 0 →
      (health.RecordTransaction clk c tx).1.ErrorCount ≥ 1 →
      (health.RecordTransaction clk c tx).1.AuthorizationRate = 0) ∧
    ((health.RecordTransaction clk c tx).1.TotalTransactions = 0 →
      (health.RecordTransaction clk c tx).1.AuthorizationRate = 1) := by
  open health domain in
  by_cases hnil : retained clk.prune (history c tx.ProcessorID ++ [tx]) = []
  · rw [RecordTransaction_fst_of_nil _ _ _ hnil]
    simp
  · have hw := scoringWindow_ne_nil _ hnil
    rw [RecordTransaction_fst_of_ne_nil _ _ _ hnil]
    simp only
    unfold windowAuthRate authorizationRate
    refine ⟨?_, ?_, ?_⟩
    · intro hpos
      rw [if_pos hpos]
      push_cast
      rfl
    · intro hzero hE
      rw [if_neg (by omega), if_pos (by omega)]
    · intro htot
      exact absurd (List.length_eq_zero.mp (by exact_mod_cast htot)) hw

/-- C4 at a fresh calculator and one approved outcome: counts 1, 0, 0 and rate 1/1. -/
theorem health.record_authorization_rate_witness :
    (health.RecordTransaction (health.clockAt 0) health.NewCalculator
        (health.createTx "processor_a" domain.ResultApproved 0)).1.AuthorizationRate =
      ((health.RecordTransaction (health.clockAt 0) health.NewCalculator
          (health.createTx "processor_a" domain.ResultApproved 0)).1.SuccessCount : ℚ) /
        (((health.RecordTransaction (health.clockAt 0) health.NewCalculator
            (health.createTx "processor_a" domain.ResultApproved 0)).1.SuccessCount : ℚ) +
          ((health.RecordTransaction (health.clockAt 0) health.NewCalculator
            (health.createTx "processor_a" domain.ResultApproved 0)).1.FailureCount : ℚ)) :=
  (health.record_authorization_rate (health.clockAt 0) health.NewCalculator
    (health.createTx "processor_a" domain.ResultApproved 0)).1 (by decide)

/-- C5, the failing input: processor_a is driven to Down by ten error outcomes at
instant 0; eleven minutes later an outcome stamped 0 is recorded.  Pruning empties
the history, the call returns a Healthy snapshot with rate 1 and no previous status,
the stored status flips from Down to Healthy, and the transition log is unchanged
(it still ends with the Healthy to Down entry logged earlier). -/
theorem health.record_stale_outcome_logs_no_transition :
    (health.GetHealth 0
        (health.recordAll health.NewCalculator
          (health.burst "processor_a" domain.ResultError 10)).2 "processor_a").Status =
      domain.StatusDown ∧
    (health.RecordTransaction (health.clockAt health.elevenMinutes)
        (health.recordAll health.NewCalculator
          (health.burst "processor_a" domain.ResultError 10)).2
        (health.createTx "processor_a" domain.ResultApproved 0)).1.Status =
      domain.StatusHealthy ∧
    (health.RecordTransaction (health.clockAt health.elevenMinutes)
        (health.recordAll health.NewCalculator
          (health.burst "processor_a" domain.ResultError 10)).2
        (health.createTx "processor_a" domain.ResultApproved 0)).2.transitions =
      (health.recordAll health.NewCalculator
        (health.burst "processor_a" domain.ResultError 10)).2.transitions ∧
    ((health.recordAll health.NewCalculator
        (health.burst "processor_a" domain.ResultError 10)).2.transitions.map
      (fun t => (t.ProcessorID, t.FromStatus, t.ToStatus))) =
      [("processor_a", domain.StatusHealthy, domain.StatusDown)] := by
  decide!

/-- C6, as stated, fails: processor_a is driven to Down by 50 error outcomes (score
0 + 5 for more than 30 outcomes in the window), processor_b has one declined outcome
(Healthy by the sample-size gate, rate 0, score 0).  The Down processor gets rank 1
and the Healthy one rank 2. -/
theorem routing.recommend_down_before_healthy :
    (routing.Recommend sort.insertionSort 0
        (routing.twoProcessorEngine
          (health.recordAll health.NewCalculator
            (health.burst "processor_a" domain.ResultError 50 ++
              health.burst "processor_b" domain.ResultDeclined 1)).2)
        domain.MethodPIX domain.CountryBR 100).Recommendations.map
      (fun r => (r.ProcessorID, r.Rank, r.Status, r.AuthorizationRate)) =
      [("processor_a", 1, domain.StatusDown, 0), ("processor_b", 2, domain.StatusHealthy, 0)] := by
  decide!

/-- C6, amended: in the list returned by `Recommend` (for any `sort.Slice` meeting
its contract), every Healthy candidate whose authorization rate exceeds 0.05 has a
smaller rank than every Down candidate. -/
theorem routing.recommend_healthy_before_down (Slice : routing.Sorter)
    (hS : sort.SliceContract Slice) (now : domain.Time) (e : routing.Engine)
    (method : domain.PaymentMethod) (country : domain.Country) (amount : ℚ)
    (h d : domain.ProcessorRank)
    (hh : h ∈ (routing.Recommend Slice now e method country amount).Recommendations)
    (hd : d ∈ (routing.Recommend Slice now e method country amount).Recommendations)
    (hhs : h.Status = domain.StatusHealthy) (hrate : h.AuthorizationRate > 0.05)
    (hds : d.Status = domain.StatusDown) :
    h.Rank < d.Rank := by
  open routing domain in
  obtain ⟨k1, s1, hk1, -, hr1, hs1, ha1, -, -, hsc1⟩ :=
    mem_recommend Slice hS now e method country amount h hh
  obtain ⟨k2, s2, hk2, -, hr2, hs2, -, -, -, hsc2⟩ :=
    mem_recommend Slice hS now e method country amount d hd
  have hlow : s2.score ≤ 5 := by
    rw [hsc2]
    exact calculateScore_down_le _ (by rw [← hs2]; exact hds)
  have hhigh : s1.score > 5 := by
    rw [hsc1]
    have := calculateScore_healthy_ge s1.health (by rw [← hs1]; exact hhs)
    rw [ha1] at hrate
    norm_num at hrate
    linarith
  rw [hr1, hr2]
  have hlt : k1 < k2 := by
    rcases Nat.lt_trichotomy k1 k2 with hlt | heq | hgt
    · exact hlt
    · subst heq
      rw [hk1] at hk2
      have : s1 = s2 := by simpa using hk2
      subst this
      linarith
    · have := pairwise_getElem? _ (sorted_scores Slice hS _) k2 k1 s2 s1 hk2 hk1 hgt
      simp only [ge_iff_le] at this
      linarith
  omega

/-- C6 amended, at the engine test: processor_a Down after 50 error outcomes,
processor_b Healthy after 50 approved outcomes; processor_b has rank 1. -/
theorem routing.recommend_healthy_before_down_witness :
    ({ ProcessorID := "processor_b", Rank := 1, Status := domain.StatusHealthy,
       AuthorizationRate := 1, Recommended := true,
       Reason := "Best option - highest authorization rate" } : domain.ProcessorRank).Rank <
    ({ ProcessorID := "processor_a", Rank := 2, Status := domain.StatusDown,
       AuthorizationRate := 0, Recommended := false,
       Reason := "Processor is DOWN - not recommended" } : domain.ProcessorRank).Rank :=
  routing.recommend_healthy_before_down sort.insertionSort sort.insertionSort_contract 0
    (routing.twoProcessorEngine
      (health.recordAll health.NewCalculator
        (health.burst "processor_a" domain.ResultError 50 ++
          health.burst "processor_b" domain.ResultApproved 50)).2)
    domain.MethodPIX domain.CountryBR 100 _ _
    (by decide!) (by decide!) (by decide!) (by norm_num) (by decide!)

/-- C7: in every recommendation returned by `Recommend`, an entry is recommended if
and only if its rank is 1 and its status is not Down; at most one entry is
recommended; and when every entry is Down none is recommended. -/
theorem routing.recommend_recommended_iff (Slice : routing.Sorter) (now : domain.Time)
    (e : routing.Engine) (method : domain.PaymentMethod) (country : domain.Country)
    (amount : ℚ) :
    (∀ r ∈ (routing.Recommend Slice now e method country amount).Recommendations,
      (r.Recommended = true ↔ (r.Rank = 1 ∧ r.Status ≠ domain.StatusDown))) ∧
    (routing.Recommend Slice now e method country amount).Recommendations.countP
      (fun r => r.Recommended) ≤ 1 ∧
    ((∀ r ∈ (routing.Recommend Slice now e method country amount).Recommendations,
        r.Status = domain.StatusDown) →
      ∀ r ∈ (routing.Recommend Slice now e method country amount).Recommendations,
        r.Recommended = false) := by
  open routing domain in
  have hiff : ∀ (l : List scored) (i : Nat), ∀ r ∈ buildRankings i l,
      (r.Recommended = true ↔ (r.Rank = 1 ∧ r.Status ≠ StatusDown)) := by
    intro l
    induction l with
    | nil => intro i r hr; simp [buildRankings] at hr
    | cons s rest ih =>
      intro i r hr
      simp only [buildRankings, List.mem_cons] at hr
      rcases hr with h1 | h1
      · rw [h1]
        simp only [Bool.and_eq_true, decide_eq_true_eq]
        constructor
        · rintro ⟨h2, h3⟩
          exact ⟨by rw [h2]; rfl, h3⟩
        · rintro ⟨h2, h3⟩
          exact ⟨by omega, h3⟩
      · exact ih (i + 1) r h1
  have hnone : ∀ (l : List scored) (i : Nat), 0 < i →
      (buildRankings i l).countP (fun r => r.Recommended) = 0 := by
    intro l
    induction l with
    | nil => intro i _; simp [buildRankings]
    | cons s rest ih =>
      intro i hi
      have hne : ¬ (i = 0) := by omega
      simp only [buildRankings, List.countP_cons, hne, decide_False, Bool.false_and]
      rw [ih (i + 1) (by omega)]
      simp
  have hcount : ∀ (l : List scored),
      (buildRankings 0 l).countP (fun r => r.Recommended) ≤ 1 := by
    intro l
    cases l with
    | nil => simp [buildRankings]
    | cons s rest =>
      simp only [buildRankings, List.countP_cons]
      rw [hnone rest (0 + 1) (by omega)]
      split <;> simp
  have hrec : (Recommend Slice now e method country amount).Recommendations = [] ∨
      ∃ l, (Recommend Slice now e method country amount).Recommendations =
        buildRankings 0 l := by
    unfold Recommend rankProcessors
    simp only
    split
    · exact Or.inl rfl
    · exact Or.inr ⟨_, rfl⟩
  rcases hrec with h0 | ⟨l, hl⟩
  · rw [h0]
    simp
  · rw [hl]
    refine ⟨hiff l 0, hcount l, ?_⟩
    intro hall r hr
    have h1 := (hiff l 0 r hr).not
    have h2 : ¬ (r.Rank = 1 ∧ r.Status ≠ StatusDown) := fun hx => hx.2 (hall r hr)
    simpa using h1.mpr h2

/-- C7 at the all-Down engine test: both processors are Down after 50 error outcomes
each, and neither entry is recommended. -/
theorem routing.recommend_recommended_iff_witness :
    (∀ r ∈ (routing.Recommend sort.insertionSort 0
        (routing.twoProcessorEngine
          (health.recordAll health.NewCalculator
            (health.burst "processor_a" domain.ResultError 50 ++
              health.burst "processor_b" domain.ResultError 50)).2)
        domain.MethodPIX domain.CountryBR 100).Recommendations,
      r.Status = domain.StatusDown) ∧
    (∀ r ∈ (routing.Recommend sort.insertionSort 0
        (routing.twoProcessorEngine
          (health.recordAll health.NewCalculator
            (health.burst "processor_a" domain.ResultError 50 ++
              health.burst "processor_b" domain.ResultError 50)).2)
        domain.MethodPIX domain.CountryBR 100).Recommendations,
      r.Recommended = false) :=
  ⟨by decide!,
    (routing.recommend_recommended_iff sort.insertionSort 0
      (routing.twoProcessorEngine
        (health.recordAll health.NewCalculator
          (health.burst "processor_a" domain.ResultError 50 ++
            health.burst "processor_b" domain.ResultError 50)).2)
      domain.MethodPIX domain.CountryBR 100).2.2 (by decide!)⟩

/-- C8: for every registry and every (method, country), and any `sort.Slice` meeting
its contract, the processor ids of the list returned by `Recommend` are, as a
multiset, exactly the ids of the registered processors whose payment-method list
contains the method and whose country list contains the country (one entry per such
registry entry, none for any other); the list is empty when no registered processor
matches. -/
theorem routing.recommend_matching_candidates (Slice : routing.Sorter)
    (hS : sort.SliceContract Slice) (now : domain.Time) (e : routing.Engine)
    (method : domain.PaymentMethod) (country : domain.Country) (amount : ℚ) :
    ((routing.Recommend Slice now e method country amount).Recommendations.map
        (fun r => r.ProcessorID)).Perm
      ((e.processors.values.filter
        (fun p => decide (method ∈ p.PaymentMethods ∧ country ∈ p.Countries))).map
        (fun p => p.ID)) ∧
    ((∀ p ∈ e.processors.values, ¬ (method ∈ p.PaymentMethods ∧ country ∈ p.Countries)) →
      (routing.Recommend Slice now e method country amount).Recommendations = []) := by
  open routing domain in
  have hcand : findCandidates e method country =
      e.processors.values.filter
        (fun p => decide (method ∈ p.PaymentMethods ∧ country ∈ p.Countries)) := by
    unfold findCandidates
    apply List.filter_congr
    intro p _
    rw [Bool.eq_iff_iff]
    simp [supportsMethod_iff, supportsCountry_iff]
  have hrecs : (Recommend Slice now e method country amount).Recommendations =
      buildRankings 0 (Slice scoreLess (scoreAll now e (findCandidates e method country))) :=
    rankProcessors_eq Slice hS now e _
  have hperm : ((Recommend Slice now e method country amount).Recommendations.map
      (fun r => r.ProcessorID)).Perm
      ((findCandidates e method country).map (fun p => p.ID)) := by
    rw [hrecs, map_processorID_buildRankings]
    have h1 := (hS.perm scoreLess (scoreAll now e (findCandidates e method country))).map
      (fun s => s.processor.ID)
    have h2 : (scoreAll now e (findCandidates e method country)).map (fun s => s.processor.ID) =
        (findCandidates e method country).map (fun p => p.ID) := by
      simp [scoreAll]
    rw [h2] at h1
    exact h1
  refine ⟨by rw [← hcand]; exact hperm, ?_⟩
  intro hnone
  have hnil : findCandidates e method country = [] := by
    rw [hcand, List.filter_eq_nil_iff]
    intro p hp
    simpa using hnone p hp
  rw [hnil] at hperm
  simpa using hperm

/-- C8 at the filter test: `processor_pix` supports PIX in BR and `processor_card`
supports CARD in BR; no registered processor supports CARD in MX, and the
recommendation for (CARD, MX) is empty. -/
theorem routing.recommend_matching_candidates_witness :
    (∀ p ∈ routing.filterEngine.processors.values,
      ¬ (domain.MethodCard ∈ p.PaymentMethods ∧ domain.CountryMX ∈ p.Countries)) ∧
    (routing.Recommend sort.insertionSort 0 routing.filterEngine
      domain.MethodCard domain.CountryMX 100).Recommendations = [] :=
  ⟨by decide,
    (routing.recommend_matching_candidates sort.insertionSort sort.insertionSort_contract 0
      routing.filterEngine domain.MethodCard domain.CountryMX 100).2 (by decide)⟩

/-- C9: for every health snapshot `h`, `calculateScore h = p + b`, where `p` is 0 if
the status is Down, the authorization rate times 50 if it is Degraded and the
authorization rate times 100 if it is Healthy, and `b` is 5 if the total of
transactions in the window exceeds 30 and 0 otherwise.  (A status string that is none
of the three constants, which no snapshot of the calculator carries, gets no
penalty; that is the last branch.) -/
theorem routing.calculateScore_formula (h : domain.ProcessorHealth) :
    routing.calculateScore h =
      (if h.Status = domain.StatusDown then 0
        else if h.Status = domain.StatusDegraded then h.AuthorizationRate * 50
        else if h.Status = domain.StatusHealthy then h.AuthorizationRate * 100
        else h.AuthorizationRate * 100) +
      (if h.TotalTransactions > 30 then 5 else 0) := by
  unfold routing.calculateScore
  by_cases h1 : h.Status = domain.StatusDown
  · simp only [h1, if_true]
    split <;> simp
  · by_cases h2 : h.Status = domain.StatusDegraded
    · simp only [h1, h2, if_true, if_false]
      have hhalf : h.AuthorizationRate * 100 * 0.5 = h.AuthorizationRate * 50 := by
        norm_num
        ring
      rw [hhalf]
      split <;> simp
    · simp only [h1, h2, if_false, ite_self]
      split <;> simp

/-- C10: for every registry and health state, and any `sort.Slice` meeting its
contract, the list returned by `Recommend` is a permutation of the matching
candidates (by processor id), its entries are in non-increasing order of score
(the score of an entry being `calculateScore` of the current health of its
processor), and the entry at position `k`, counting from 0, carries rank `k + 1`. -/
theorem routing.recommend_sorted_ranked (Slice : routing.Sorter)
    (hS : sort.SliceContract Slice) (now : domain.Time) (e : routing.Engine)
    (method : domain.PaymentMethod) (country : domain.Country) (amount : ℚ) :
    ((routing.Recommend Slice now e method country amount).Recommendations.map
        (fun r => r.ProcessorID)).Perm
      ((routing.findCandidates e method country).map (fun p => p.ID)) ∧
    ((routing.Recommend Slice now e method country amount).Recommendations.map
        (fun r => routing.calculateScore
          (health.GetHealth now e.calculator r.ProcessorID))).Pairwise
      (fun x y => x ≥ y) ∧
    (∀ (k : Nat) (r : domain.ProcessorRank),
      (routing.Recommend Slice now e method country amount).Recommendations[k]? = some r →
        r.Rank = (k : Int) + 1) := by
  open routing domain in
  have hrecs : (Recommend Slice now e method country amount).Recommendations =
      buildRankings 0 (Slice scoreLess (scoreAll now e (findCandidates e method country))) :=
    rankProcessors_eq Slice hS now e _
  have hp := hS.perm scoreLess (scoreAll now e (findCandidates e method country))
  refine ⟨?_, ?_, ?_⟩
  · rw [hrecs, map_processorID_buildRankings]
    have h1 := hp.map (fun s => s.processor.ID)
    have h2 : (scoreAll now e (findCandidates e method country)).map (fun s => s.processor.ID) =
        (findCandidates e method country).map (fun p => p.ID) := by
      simp [scoreAll]
    rw [h2] at h1
    exact h1
  · have hmap : (Recommend Slice now e method country amount).Recommendations.map
        (fun r => calculateScore (health.GetHealth now e.calculator r.ProcessorID)) =
        (Slice scoreLess (scoreAll now e (findCandidates e method country))).map
          (fun s => s.score) := by
      have hcomp : (Recommend Slice now e method country amount).Recommendations.map
          (fun r => calculateScore (health.GetHealth now e.calculator r.ProcessorID)) =
          ((Recommend Slice now e method country amount).Recommendations.map
            (fun r => r.ProcessorID)).map
            (fun id => calculateScore (health.GetHealth now e.calculator id)) := by
        rw [List.map_map]
        rfl
      rw [hcomp, hrecs, map_processorID_buildRankings, List.map_map]
      apply List.map_congr_left
      intro s hs
      obtain ⟨_, h6, h7⟩ := mem_scoreAll now e _ s (hp.mem_iff.mp hs)
      simp only [Function.comp]
      rw [h7, h6]
    rw [hmap, List.pairwise_map]
    exact sorted_scores Slice hS _
  · intro k r hk
    rw [hrecs, getElem?_buildRankings] at hk
    cases hl : (Slice scoreLess (scoreAll now e (findCandidates e method country)))[k]? with
    | none => rw [hl] at hk; simp at hk
    | some s =>
      rw [hl] at hk
      simp only [Option.map_some', Option.some.injEq, zero_add] at hk
      rw [← hk]

/-- C10 at the engine test (processor_a Down after 50 error outcomes, processor_b
Healthy after 50 approved outcomes): the scores along the returned list are
non-increasing. -/
theorem routing.recommend_sorted_ranked_witness :
    ((routing.Recommend sort.insertionSort 0
        (routing.twoProcessorEngine
          (health.recordAll health.NewCalculator
            (health.burst "processor_a" domain.ResultError 50 ++
              health.burst "processor_b" domain.ResultApproved 50)).2)
        domain.MethodPIX domain.CountryBR 100).Recommendations.map
      (fun r => routing.calculateScore
        (health.GetHealth 0
          (routing.twoProcessorEngine
            (health.recordAll health.NewCalculator
              (health.burst "processor_a" domain.ResultError 50 ++
                health.burst "processor_b" domain.ResultApproved 50)).2).calculator
          r.ProcessorID))).Pairwise (fun x y => x ≥ y) :=
  (routing.recommend_sorted_ranked sort.insertionSort sort.insertionSort_contract 0
    (routing.twoProcessorEngine
      (health.recordAll health.NewCalculator
        (health.burst "processor_a" domain.ResultError 50 ++
          health.burst "processor_b" domain.ResultApproved 50)).2)
    domain.MethodPIX domain.CountryBR 100).2.1

/-- C11, as stated, fails: processor_a has 9 approved and 1 declined outcome (Healthy,
rate 9/10, score 90), processor_b has 44 approved and 6 declined (Healthy, rate
22/25, score 88 + 5 for more than 30 outcomes in the window).  Both are Healthy, and
processor_b, with the lower rate, gets rank 1. -/
theorem routing.recommend_lower_rate_first :
    (routing.Recommend sort.insertionSort 0
        (routing.twoProcessorEngine
          (health.recordAll health.NewCalculator
            (health.burst "processor_a" domain.ResultApproved 9 ++
              health.burst "processor_a" domain.ResultDeclined 1 ++
              health.burst "processor_b" domain.ResultApproved 44 ++
              health.burst "processor_b" domain.ResultDeclined 6)).2)
        domain.MethodPIX domain.CountryBR 100).Recommendations.map
      (fun r => (r.ProcessorID, r.Rank, r.Status, r.AuthorizationRate)) =
      [("processor_b", 1, domain.StatusHealthy, 22 / 25),
        ("processor_a", 2, domain.StatusHealthy, 9 / 10)] := by
  decide!

/-- C11, amended: in the list returned by `Recommend` (for any `sort.Slice` meeting
its contract), of two Healthy candidates the one with the strictly higher
authorization rate has the smaller rank, provided its confidence bonus is not the
smaller one (it has more than 30 outcomes in its window, or the other has at most
30) or its rate is higher by more than 0.05. -/
theorem routing.recommend_healthy_rate_order (Slice : routing.Sorter)
    (hS : sort.SliceContract Slice) (now : domain.Time) (e : routing.Engine)
    (method : domain.PaymentMethod) (country : domain.Country) (amount : ℚ)
    (a b : domain.ProcessorRank)
    (ha : a ∈ (routing.Recommend Slice now e method country amount).Recommendations)
    (hb : b ∈ (routing.Recommend Slice now e method country amount).Recommendations)
    (has : a.Status = domain.StatusHealthy) (hbs : b.Status = domain.StatusHealthy)
    (hrate : a.AuthorizationRate > b.AuthorizationRate)
    (hbonus : (health.GetHealth now e.calculator a.ProcessorID).TotalTransactions > 30 ∨
      (health.GetHealth now e.calculator b.ProcessorID).TotalTransactions ≤ 30 ∨
      a.AuthorizationRate > b.AuthorizationRate + 0.05) :
    a.Rank < b.Rank := by
  open routing domain in
  apply rank_lt_of_score_gt Slice hS now e method country amount a b ha hb
  obtain ⟨hsa, hra⟩ := entry_health Slice hS now e method country amount a ha
  obtain ⟨hsb, hrb⟩ := entry_health Slice hS now e method country amount b hb
  rw [calculateScore_healthy _ (by rw [← hsa]; exact has),
    calculateScore_healthy _ (by rw [← hsb]; exact hbs), ← hra, ← hrb]
  rcases hbonus with h1 | h1 | h1
  · rw [if_pos h1]
    split <;> linarith
  · rw [if_neg (by omega : ¬ (health.GetHealth now e.calculator b.ProcessorID).TotalTransactions > 30)]
    split <;> linarith
  · norm_num at h1
    split <;> split <;> linarith

/-- C11 amended, at the engine test: processor_a has 35 approved and 15 declined
outcomes, processor_b has 45 approved and 5 declined; processor_b ranks first. -/
theorem routing.recommend_healthy_rate_order_witness :
    ({ ProcessorID := "processor_b", Rank := 1, Status := domain.StatusHealthy,
       AuthorizationRate := 9 / 10, Recommended := true,
       Reason := "Best option - highest authorization rate" } : domain.ProcessorRank).Rank <
    ({ ProcessorID := "processor_a", Rank := 2, Status := domain.StatusHealthy,
       AuthorizationRate := 7 / 10, Recommended := false,
       Reason := "Healthy fallback option" } : domain.ProcessorRank).Rank :=
  routing.recommend_healthy_rate_order sort.insertionSort sort.insertionSort_contract 0
    (routing.twoProcessorEngine
      (health.recordAll health.NewCalculator
        (health.burst "processor_a" domain.ResultApproved 35 ++
          health.burst "processor_a" domain.ResultDeclined 15 ++
          health.burst "processor_b" domain.ResultApproved 45 ++
          health.burst "processor_b" domain.ResultDeclined 5)).2)
    domain.MethodPIX domain.CountryBR 100 _ _
    (by decide!) (by decide!) (by decide!) (by decide!) (by norm_num)
    (Or.inl (by decide!))

/-- C12: from any calculator state, record 50 approved outcomes consecutively for one
processor, each inside the retention window at its own Record call and at every later
one of the 50.  The snapshot returned by the last call is Healthy with authorization
rate 1, total 50, success count 50, failure count 0 and error count 0. -/
theorem health.record_fifty_approved_healthy (c : health.Calculator) (p : String)
    (steps : List (health.Clock × domain.Transaction))
    (hlen : steps.length = 50)
    (hp : ∀ s ∈ steps, s.2.ProcessorID = p)
    (hres : ∀ s ∈ steps, s.2.Result = domain.ResultApproved)
    (hpair : steps.Pairwise (fun s1 s2 => health.Fresh s2.1.prune s1.2))
    (hself : ∀ s ∈ steps, health.Fresh s.1.prune s.2) :
    ∃ h, (health.recordAll c steps).1.getLast? = some h ∧
      h.Status = domain.StatusHealthy ∧ h.AuthorizationRate = 1 ∧
      h.TotalTransactions = 50 ∧ h.SuccessCount = 50 ∧ h.FailureCount = 0 ∧
      h.ErrorCount = 0 := by
  open health domain in
  obtain ⟨pre, hpre⟩ := recordAll_history_suffix p c steps hp hpair hself
    (by rw [hlen, WindowSize]; decide)
  rcases List.eq_nil_or_concat steps with hnil | ⟨init, s, hs⟩
  · rw [hnil] at hlen
    simp at hlen
  rw [List.concat_eq_append] at hs
  subst hs
  have hsp : s.2.ProcessorID = p := hp s (by simp)
  rw [recordAll_append_singleton] at hpre ⊢
  simp only at hpre
  rw [RecordTransaction_history, hsp, if_pos rfl] at hpre
  have hwlen : ((init ++ [s]).map Prod.snd).length = WindowSize := by
    rw [List.length_map, hlen, WindowSize]
  have hne : retained s.1.prune (history (recordAll c init).2 s.2.ProcessorID ++ [s.2]) ≠ [] := by
    rw [hsp, hpre]
    simp
  have hwin : scoringWindow
      (retained s.1.prune (history (recordAll c init).2 s.2.ProcessorID ++ [s.2])) =
      (init ++ [s]).map Prod.snd := by
    rw [hsp, hpre]
    exact scoringWindow_append_full _ _ hwlen
  have hca : ((init ++ [s]).map Prod.snd).countP
      (fun tx => decide (tx.Result = ResultApproved)) = 50 := by
    rw [← hlen, ← List.length_map (init ++ [s]) Prod.snd, List.countP_eq_length]
    intro tx htx
    obtain ⟨x, hx, rfl⟩ := List.mem_map.mp htx
    exact decide_eq_true (hres x hx)
  have hcd : ((init ++ [s]).map Prod.snd).countP
      (fun tx => decide (tx.Result = ResultDeclined)) = 0 := by
    rw [List.countP_eq_zero]
    intro tx htx
    obtain ⟨x, hx, rfl⟩ := List.mem_map.mp htx
    simp [hres x hx, ResultApproved, ResultDeclined]
  have hce : ((init ++ [s]).map Prod.snd).countP
      (fun tx => decide (tx.Result = ResultError ∨ tx.Result = ResultTimeout)) = 0 := by
    rw [List.countP_eq_zero]
    intro tx htx
    obtain ⟨x, hx, rfl⟩ := List.mem_map.mp htx
    simp [hres x hx, ResultApproved, ResultError, ResultTimeout]
  have htally : tally ((init ++ [s]).map Prod.snd) =
      { approved := 50, declined := 0, errors := 0 } := by
    rw [tally_eq, hca, hcd, hce]
    rfl
  refine ⟨(RecordTransaction s.1 (recordAll c init).2 s.2).1, by simp, ?_⟩
  rw [RecordTransaction_fst_of_ne_nil _ _ _ hne]
  simp only
  unfold windowStatus windowAuthRate windowErrorRate
  rw [hwin, htally, hwlen]
  refine ⟨?_, ?_, ?_, rfl, rfl, rfl⟩
  · rw [determineStatus_eq]
    norm_num [authorizationRate, WindowSize]
  · norm_num [authorizationRate]
  · simp [WindowSize]

/-- C12 at the rolling-window test: 60 error outcomes, then 50 approved ones. -/
theorem health.record_fifty_approved_healthy_witness :
    ∃ h, (health.recordAll
        (health.recordAll health.NewCalculator
          (health.burst "processor_a" domain.ResultError 60)).2
        (health.burst "processor_a" domain.ResultApproved 50)).1.getLast? = some h ∧
      h.Status = domain.StatusHealthy ∧ h.AuthorizationRate = 1 ∧
      h.TotalTransactions = 50 ∧ h.SuccessCount = 50 ∧ h.FailureCount = 0 ∧
      h.ErrorCount = 0 :=
  health.record_fifty_approved_healthy
    (health.recordAll health.NewCalculator
      (health.burst "processor_a" domain.ResultError 60)).2
    "processor_a" (health.burst "processor_a" domain.ResultApproved 50)
    (by decide) (by decide) (by decide) (by decide) (by decide)

/-- C13: after `RecordTransaction` of outcome `tx`, the history of its processor is the
last `min 100 m` elements, in order, of the old history followed by `tx` filtered to
the outcomes stamped strictly later than the prune clock minus ten minutes (`m` being
the length of the filtered sequence).  So the history has at most 100 entries, none
stamped at or before that cutoff, and the statistics of the returned snapshot depend
on this pruned history only: two calls that leave equal histories return equal
status, rate and counts. -/
theorem health.record_history_pruned (clk : health.Clock) (c : health.Calculator)
    (tx : domain.Transaction) :
    (health.history (health.RecordTransaction clk c tx).2 tx.ProcessorID =
      ((health.history c tx.ProcessorID ++ [tx]).filter
          (fun o => decide (o.Timestamp > clk.prune - 10 * (60 * 1000000000)))).drop
        (((health.history c tx.ProcessorID ++ [tx]).filter
            (fun o => decide (o.Timestamp > clk.prune - 10 * (60 * 1000000000)))).length -
          min 100 ((health.history c tx.ProcessorID ++ [tx]).filter
            (fun o => decide (o.Timestamp > clk.prune - 10 * (60 * 1000000000)))).length)) ∧
    (health.history (health.RecordTransaction clk c tx).2 tx.ProcessorID).length ≤ 100 ∧
    (∀ o ∈ health.history (health.RecordTransaction clk c tx).2 tx.ProcessorID,
      o.Timestamp > clk.prune - 10 * (60 * 1000000000)) ∧
    (∀ (clk2 : health.Clock) (c2 : health.Calculator) (tx2 : domain.Transaction),
      health.history (health.RecordTransaction clk2 c2 tx2).2 tx2.ProcessorID =
          health.history (health.RecordTransaction clk c tx).2 tx.ProcessorID →
        (health.RecordTransaction clk2 c2 tx2).1.Status =
            (health.RecordTransaction clk c tx).1.Status ∧
          (health.RecordTransaction clk2 c2 tx2).1.AuthorizationRate =
            (health.RecordTransaction clk c tx).1.AuthorizationRate ∧
          (health.RecordTransaction clk2 c2 tx2).1.TotalTransactions =
            (health.RecordTransaction clk c tx).1.TotalTransactions ∧
          (health.RecordTransaction clk2 c2 tx2).1.SuccessCount =
            (health.RecordTransaction clk c tx).1.SuccessCount ∧
          (health.RecordTransaction clk2 c2 tx2).1.FailureCount =
            (health.RecordTransaction clk c tx).1.FailureCount ∧
          (health.RecordTransaction clk2 c2 tx2).1.ErrorCount =
            (health.RecordTransaction clk c tx).1.ErrorCount) := by
  open health domain in
  have hh : history (RecordTransaction clk c tx).2 tx.ProcessorID =
      ((history c tx.ProcessorID ++ [tx]).filter
          (fun o => decide (o.Timestamp > clk.prune - 10 * (60 * 1000000000)))).drop
        (((history c tx.ProcessorID ++ [tx]).filter
            (fun o => decide (o.Timestamp > clk.prune - 10 * (60 * 1000000000)))).length -
          min 100 ((history c tx.ProcessorID ++ [tx]).filter
            (fun o => decide (o.Timestamp > clk.prune - 10 * (60 * 1000000000)))).length) := by
    rw [RecordTransaction_history, if_pos rfl, retained_eq_drop]
    rfl
  refine ⟨hh, ?_, ?_, ?_⟩
  · rw [hh, List.length_drop]
    omega
  · intro o ho
    rw [hh] at ho
    have hmem := List.mem_of_mem_drop ho
    simpa using (List.mem_filter.mp hmem).2
  · intro clk2 c2 tx2 heq
    rw [RecordTransaction_fst clk2 c2 tx2, RecordTransaction_fst clk c tx, heq]
    by_cases hnil : history (RecordTransaction clk c tx).2 tx.ProcessorID = []
    · simp [hnil]
    · simp [hnil]

/-- C14: the snapshot returned by `RecordTransaction` over a pruned history of length
`n` has total `min 50 n`, and its success, failure and error counts are the numbers of
approved, declined and (error or timeout) outcomes among the last `min 50 n` entries
of that history.  Entries before those have no influence: with the same stored
previous snapshot and the same clock reads for the snapshot, two calls whose pruned
histories end in the same last `min 50 n` entries return the same snapshot. -/
theorem health.record_counts_last_window (clk : health.Clock) (c : health.Calculator)
    (tx : domain.Transaction) :
    ((health.RecordTransaction clk c tx).1.TotalTransactions =
      ((min 50 (health.history (health.RecordTransaction clk c tx).2 tx.ProcessorID).length :
        Nat) : Int)) ∧
    ((health.RecordTransaction clk c tx).1.SuccessCount =
      ((((health.history (health.RecordTransaction clk c tx).2 tx.ProcessorID).drop
        ((health.history (health.RecordTransaction clk c tx).2 tx.ProcessorID).length -
          min 50 (health.history (health.RecordTransaction clk c tx).2 tx.ProcessorID).length)).countP
        (fun o => decide (o.Result = domain.ResultApproved)) : Nat) : Int)) ∧
    ((health.RecordTransaction clk c tx).1.FailureCount =
      ((((health.history (health.RecordTransaction clk c tx).2 tx.ProcessorID).drop
        ((health.history (health.RecordTransaction clk c tx).2 tx.ProcessorID).length -
          min 50 (health.history (health.RecordTransaction clk c tx).2 tx.ProcessorID).length)).countP
        (fun o => decide (o.Result = domain.ResultDeclined)) : Nat) : Int)) ∧
    ((health.RecordTransaction clk c tx).1.ErrorCount =
      ((((health.history (health.RecordTransaction clk c tx).2 tx.ProcessorID).drop
        ((health.history (health.RecordTransaction clk c tx).2 tx.ProcessorID).length -
          min 50 (health.history (health.RecordTransaction clk c tx).2 tx.ProcessorID).length)).countP
        (fun o => decide (o.Result = domain.ResultError ∨ o.Result = domain.ResultTimeout)) :
          Nat) : Int)) ∧
    (∀ (clk2 : health.Clock) (c2 : health.Calculator) (tx2 : domain.Transaction),
      tx2.ProcessorID = tx.ProcessorID →
      clk2.updated = clk.updated → clk2.changed = clk.changed →
      c2.processors.get? tx.ProcessorID = c.processors.get? tx.ProcessorID →
      (health.history (health.RecordTransaction clk2 c2 tx2).2 tx.ProcessorID).drop
          ((health.history (health.RecordTransaction clk2 c2 tx2).2 tx.ProcessorID).length -
            min 50 (health.history (health.RecordTransaction clk2 c2 tx2).2 tx.ProcessorID).length) =
        (health.history (health.RecordTransaction clk c tx).2 tx.ProcessorID).drop
          ((health.history (health.RecordTransaction clk c tx).2 tx.ProcessorID).length -
            min 50 (health.history (health.RecordTransaction clk c tx).2 tx.ProcessorID).length) →
      (health.RecordTransaction clk2 c2 tx2).1 = (health.RecordTransaction clk c tx).1) := by
  open health domain in
  refine ⟨?_, ?_, ?_, ?_, ?_⟩
  · rw [RecordTransaction_fst clk c tx]
    by_cases hnil : history (RecordTransaction clk c tx).2 tx.ProcessorID = []
    · simp [hnil]
    · simp only [if_neg hnil]
      rw [scoringWindow_eq_drop, List.length_drop]
      congr 1
      omega
  · rw [RecordTransaction_fst clk c tx]
    by_cases hnil : history (RecordTransaction clk c tx).2 tx.ProcessorID = []
    · simp [hnil]
    · simp only [if_neg hnil]
      rw [tally_eq, scoringWindow_eq_drop]
  · rw [RecordTransaction_fst clk c tx]
    by_cases hnil : history (RecordTransaction clk c tx).2 tx.ProcessorID = []
    · simp [hnil]
    · simp only [if_neg hnil]
      rw [tally_eq, scoringWindow_eq_drop]
  · rw [RecordTransaction_fst clk c tx]
    by_cases hnil : history (RecordTransaction clk c tx).2 tx.ProcessorID = []
    · simp [hnil]
    · simp only [if_neg hnil]
      rw [tally_eq, scoringWindow_eq_drop]
  · intro clk2 c2 tx2 hid hu hch hprev hlast
    rw [← scoringWindow_eq_drop, ← scoringWindow_eq_drop] at hlast
    have hnil_iff : history (RecordTransaction clk2 c2 tx2).2 tx.ProcessorID = [] ↔
        history (RecordTransaction clk c tx).2 tx.ProcessorID = [] := by
      constructor
      · intro h2
        by_contra h1
        apply scoringWindow_ne_nil _ h1
        rw [← hlast, h2]
        rfl
      · intro h1
        by_contra h2
        apply scoringWindow_ne_nil _ h2
        rw [hlast, h1]
        rfl
    have hps : previousStatusOf c2 tx.ProcessorID = previousStatusOf c tx.ProcessorID := by
      unfold previousStatusOf
      rw [hprev]
    obtain ⟨hws, hwa, -⟩ := window_congr _ _ hlast
    rw [RecordTransaction_fst clk2 c2 tx2, RecordTransaction_fst clk c tx, hid]
    by_cases hnil : history (RecordTransaction clk c tx).2 tx.ProcessorID = []
    · rw [if_pos hnil, if_pos (hnil_iff.mpr hnil), hu]
    · rw [if_neg hnil, if_neg (fun h => hnil (hnil_iff.mp h)), hlast, hws, hwa, hps, hprev, hu,
        hch]

/-- C15: for a processor id that never had an outcome recorded (no call of the
sequence that built the state was for it, or simply no snapshot is stored for it),
`GetHealth` returns a snapshot with that id, status Healthy, authorization rate 1,
all counts 0, no status-changed-at and no previous status; for an id with a stored
snapshot it returns that stored snapshot. -/
theorem health.getHealth_default_or_stored (now : domain.Time) (id : String) :
    (∀ steps : List (health.Clock × domain.Transaction),
      (∀ s ∈ steps, s.2.ProcessorID ≠ id) →
      health.GetHealth now (health.recordAll health.NewCalculator steps).2 id =
        { ProcessorID := id, Status := domain.StatusHealthy, AuthorizationRate := 1,
          TotalTransactions := 0, SuccessCount := 0, FailureCount := 0, ErrorCount := 0,
          LastUpdated := now, StatusChangedAt := none, PreviousStatus := "" }) ∧
    (∀ c : health.Calculator, c.processors.get? id = none →
      health.GetHealth now c id =
        { ProcessorID := id, Status := domain.StatusHealthy, AuthorizationRate := 1,
          TotalTransactions := 0, SuccessCount := 0, FailureCount := 0, ErrorCount := 0,
          LastUpdated := now, StatusChangedAt := none, PreviousStatus := "" }) ∧
    (∀ (c : health.Calculator) (h : domain.ProcessorHealth),
      c.processors.get? id = some h → health.GetHealth now c id = h) := by
  open health domain in
  have hnone : ∀ c : Calculator, c.processors.get? id = none →
      GetHealth now c id =
        { ProcessorID := id, Status := StatusHealthy, AuthorizationRate := 1,
          TotalTransactions := 0, SuccessCount := 0, FailureCount := 0, ErrorCount := 0,
          LastUpdated := now, StatusChangedAt := none, PreviousStatus := "" } := by
    intro c hc
    unfold GetHealth
    rw [hc]
  refine ⟨?_, hnone, ?_⟩
  · intro steps hsteps
    apply hnone
    rw [recordAll_processors_get? id NewCalculator steps hsteps]
    rfl
  · intro c h hc
    unfold GetHealth
    rw [hc]

/-- C15 at the rolling-window run for processor_a: processor_b, never recorded, gets
the default snapshot. -/
theorem health.getHealth_default_or_stored_witness :
    health.GetHealth 7
        (health.recordAll health.NewCalculator
          (health.burst "processor_a" domain.ResultError 60)).2 "processor_b" =
      { ProcessorID := "processor_b", Status := domain.StatusHealthy, AuthorizationRate := 1,
        TotalTransactions := 0, SuccessCount := 0, FailureCount := 0, ErrorCount := 0,
        LastUpdated := 7, StatusChangedAt := none, PreviousStatus := "" } :=
  (health.getHealth_default_or_stored 7 "processor_b").1
    (health.burst "processor_a" domain.ResultError 60) (by decide)

/-- C16: the snapshot returned by `RecordTransaction` is the one stored for its
processor afterwards: `GetHealth` called right after returns exactly that snapshot,
whatever was stored before, and in a well-formed state `GetAllHealth` holds exactly
one snapshot carrying that processor id, the returned one.  The state stays
well-formed. -/
theorem health.record_stores_returned_snapshot (clk : health.Clock) (c : health.Calculator)
    (tx : domain.Transaction) (now : domain.Time) (hwf : health.WellFormed c) :
    health.GetHealth now (health.RecordTransaction clk c tx).2 tx.ProcessorID =
      (health.RecordTransaction clk c tx).1 ∧
    (health.GetAllHealth (health.RecordTransaction clk c tx).2).filter
        (fun h => decide (h.ProcessorID = tx.ProcessorID)) =
      [(health.RecordTransaction clk c tx).1] ∧
    health.WellFormed (health.RecordTransaction clk c tx).2 := by
  open health domain in
  refine ⟨?_, ?_, wellFormed_record clk c tx hwf⟩
  · unfold GetHealth
    rw [RecordTransaction_processors, GoMap.get?_set_self]
  · unfold GetAllHealth
    rw [RecordTransaction_processors]
    exact values_set_filter _ _ _ (RecordTransaction_fst_processorID clk c tx) hwf.1 hwf.2

/-- C16 at a fresh calculator and one approved outcome. -/
theorem health.record_stores_returned_snapshot_witness :
    health.WellFormed health.NewCalculator ∧
    health.GetHealth 9
        (health.RecordTransaction (health.clockAt 0) health.NewCalculator
          (health.createTx "processor_a" domain.ResultApproved 0)).2
        (health.createTx "processor_a" domain.ResultApproved 0).ProcessorID =
      (health.RecordTransaction (health.clockAt 0) health.NewCalculator
        (health.createTx "processor_a" domain.ResultApproved 0)).1 :=
  ⟨⟨by decide, by decide⟩,
    (health.record_stores_returned_snapshot (health.clockAt 0) health.NewCalculator
      (health.createTx "processor_a" domain.ResultApproved 0) 9
      ⟨by decide, by decide⟩).1⟩

/-- C17: `GetTransitions c t` is the subsequence of the transition log made of the
transitions stamped strictly after `t`, in log order: it is a sublist of the log,
a transition is in it exactly when it is in the log and stamped after `t`, and it
equals the log filtered by that test.  A transition stamped `t` or earlier is
excluded. -/
theorem health.getTransitions_strictly_after (c : health.Calculator) (t : domain.Time) :
    (health.GetTransitions c t).Sublist c.transitions ∧
    (∀ tr, tr ∈ health.GetTransitions c t ↔ (tr ∈ c.transitions ∧ t < tr.Timestamp)) ∧
    health.GetTransitions c t = c.transitions.filter (fun tr => decide (t < tr.Timestamp)) ∧
    (∀ tr ∈ c.transitions, tr.Timestamp ≤ t → tr ∉ health.GetTransitions c t) := by
  unfold health.GetTransitions
  refine ⟨List.filter_sublist _, ?_, rfl, ?_⟩
  · intro tr
    rw [List.mem_filter]
    simp
  · intro tr _ hle hmem
    have := (List.mem_filter.mp hmem).2
    simp only [gt_iff_lt, decide_eq_true_eq] at this
    exact absurd this (not_lt.mpr hle)

/-- C17 on the log of the transition test (50 approved then 50 error outcomes, all
at instant 0): both transitions are stamped 0, so asking since 0 returns nothing
and asking since -1 returns them in log order. -/
theorem health.getTransitions_strictly_after_witness :
    (health.GetTransitions
        (health.recordAll health.NewCalculator
          (health.burst "processor_a" domain.ResultApproved 50 ++
            health.burst "processor_a" domain.ResultError 50)).2 0 = []) ∧
    ((health.GetTransitions
        (health.recordAll health.NewCalculator
          (health.burst "processor_a" domain.ResultApproved 50 ++
            health.burst "processor_a" domain.ResultError 50)).2 (-1)).map
        (fun tr => (tr.FromStatus, tr.ToStatus)) =
      [(domain.StatusHealthy, domain.StatusDegraded),
        (domain.StatusDegraded, domain.StatusDown)]) ∧
    (health.GetTransitions
        (health.recordAll health.NewCalculator
          (health.burst "processor_a" domain.ResultApproved 50 ++
            health.burst "processor_a" domain.ResultError 50)).2 (-1) =
      (health.recordAll health.NewCalculator
          (health.burst "processor_a" domain.ResultApproved 50 ++
            health.burst "processor_a" domain.ResultError 50)).2.transitions.filter
        (fun tr => decide (-1 < tr.Timestamp))) :=
  ⟨by decide!, by decide!,
    (health.getTransitions_strictly_after
      (health.recordAll health.NewCalculator
        (health.burst "processor_a" domain.ResultApproved 50 ++
          health.burst "processor_a" domain.ResultError 50)).2 (-1)).2.2.1⟩

/-- C18, as stated, fails at limit 0: with three outcomes stored for processor_a,
`GetRecentTransactions` with limit 0 returns all three, not the last
`min 0 3 = 0` of them. -/
theorem health.getRecentTransactions_limit_zero :
    (health.GetRecentTransactions
        (health.recordAll health.NewCalculator
          (health.burst "processor_a" domain.ResultApproved 3)).2 "processor_a" 0).length = 3 ∧
    (health.history
        (health.recordAll health.NewCalculator
          (health.burst "processor_a" domain.ResultApproved 3)).2 "processor_a").length = 3 := by
  decide!

/-- C18, amended: for a limit above 0, `GetRecentTransactions` returns the last
`min limit n` outcomes of the processor's `n`-entry stored history, oldest first;
for a limit of 0 (or below) it returns the whole stored history; and it returns the
empty sequence when nothing is stored for the id. -/
theorem health.getRecentTransactions_last (c : health.Calculator) (id : String)
    (limit : Int) :
    (health.GetRecentTransactions c id limit =
      if limit > 0 then
        (health.history c id).drop
          ((health.history c id).length - min limit.toNat (health.history c id).length)
      else health.history c id) ∧
    (health.history c id = [] → health.GetRecentTransactions c id limit = []) := by
  open health in
  have hnil : history c id = [] → GetRecentTransactions c id limit = [] := by
    intro h
    unfold GetRecentTransactions
    simp [h]
  refine ⟨?_, hnil⟩
  by_cases h0 : history c id = []
  · rw [hnil h0, h0]
    simp
  · have hlen : ¬ (history c id).length = 0 := fun h => h0 (List.length_eq_zero.mp h)
    unfold GetRecentTransactions
    simp only [hlen, if_false]
    by_cases hpos : limit > 0
    · rw [if_pos hpos]
      by_cases hgt : ((history c id).length : Int) > limit
      · rw [if_pos ⟨hpos, hgt⟩, Nat.min_eq_left (by omega)]
      · rw [if_neg (fun h => hgt h.2), Nat.min_eq_right (by omega), Nat.sub_self,
          List.drop_zero]
    · rw [if_neg hpos, if_neg (fun h => hpos h.1)]

/-- C18 amended, with five outcomes stored (three approved, then two declined) and
limit 2: the two declined ones are returned. -/
theorem health.getRecentTransactions_last_witness :
    (health.GetRecentTransactions
        (health.recordAll health.NewCalculator
          (health.burst "processor_a" domain.ResultApproved 3 ++
            health.burst "processor_a" domain.ResultDeclined 2)).2 "processor_a" 2).map
      (fun o => o.Result) = [domain.ResultDeclined, domain.ResultDeclined] ∧
    (health.GetRecentTransactions
        (health.recordAll health.NewCalculator
          (health.burst "processor_a" domain.ResultApproved 3 ++
            health.burst "processor_a" domain.ResultDeclined 2)).2 "processor_a" 2 =
      if (2 : Int) > 0 then
        (health.history
          (health.recordAll health.NewCalculator
            (health.burst "processor_a" domain.ResultApproved 3 ++
              health.burst "processor_a" domain.ResultDeclined 2)).2 "processor_a").drop
          ((health.history
            (health.recordAll health.NewCalculator
              (health.burst "processor_a" domain.ResultApproved 3 ++
                health.burst "processor_a" domain.ResultDeclined 2)).2 "processor_a").length -
            min (2 : Int).toNat (health.history
              (health.recordAll health.NewCalculator
                (health.burst "processor_a" domain.ResultApproved 3 ++
                  health.burst "processor_a" domain.ResultDeclined 2)).2 "processor_a").length)
      else health.history
        (health.recordAll health.NewCalculator
          (health.burst "processor_a" domain.ResultApproved 3 ++
            health.burst "processor_a" domain.ResultDeclined 2)).2 "processor_a") :=
  ⟨by decide!,
    (health.getRecentTransactions_last
      (health.recordAll health.NewCalculator
        (health.burst "processor_a" domain.ResultApproved 3 ++
          health.burst "processor_a" domain.ResultDeclined 2)).2 "processor_a" 2).1⟩

/-- C19: the snapshot returned by `RecordTransaction` has its status-changed-at field
set exactly when the call appended a transition to the log (and then it is that
transition's timestamp); it is absent exactly when the log is unchanged.  In
particular a call that returns the status already stored for the processor yields a
snapshot without status-changed-at. -/
theorem health.record_status_changed_at_iff (clk : health.Clock) (c : health.Calculator)
    (tx : domain.Transaction) :
    ((health.RecordTransaction clk c tx).1.StatusChangedAt.isSome = true ↔
      ∃ tr, (health.RecordTransaction clk c tx).2.transitions = c.transitions ++ [tr] ∧
        (health.RecordTransaction clk c tx).1.StatusChangedAt = some tr.Timestamp) ∧
    ((health.RecordTransaction clk c tx).1.StatusChangedAt = none ↔
      (health.RecordTransaction clk c tx).2.transitions = c.transitions) ∧
    (∀ prev, c.processors.get? tx.ProcessorID = some prev →
      (health.RecordTransaction clk c tx).1.Status = prev.Status →
      (health.RecordTransaction clk c tx).1.StatusChangedAt = none) := by
  open health domain in
  have hne_self : ∀ tr : HealthTransition, c.transitions ++ [tr] ≠ c.transitions := by
    intro tr h
    have := congrArg List.length h
    simp at this
  by_cases hnil : retained clk.prune (history c tx.ProcessorID ++ [tx]) = []
  · have htr : (RecordTransaction clk c tx).2.transitions = c.transitions := by
      rw [RecordTransaction_transitions, if_neg (fun h => h.1 hnil)]
    rw [RecordTransaction_fst_of_nil _ _ _ hnil, htr]
    refine ⟨?_, ?_, ?_⟩
    · constructor
      · intro h
        simp at h
      · rintro ⟨tr, h, -⟩
        exact absurd h.symm (hne_self tr)
    · simp
    · intro prev _ _
      rfl
  · by_cases hc : windowStatus (retained clk.prune (history c tx.ProcessorID ++ [tx])) ≠
        previousStatusOf c tx.ProcessorID ∧ (c.processors.get? tx.ProcessorID).isSome
    · have htr := RecordTransaction_transitions clk c tx
      rw [if_pos ⟨hnil, hc⟩] at htr
      rw [RecordTransaction_fst_of_ne_nil _ _ _ hnil, htr]
      simp only [if_pos hc]
      refine ⟨?_, ?_, ?_⟩
      · constructor
        · intro _
          exact ⟨_, rfl, rfl⟩
        · intro _
          rfl
      · constructor
        · intro h
          simp at h
        · intro h
          exact absurd h (hne_self _)
      · intro prev hprev hst
        exfalso
        apply hc.1
        unfold previousStatusOf
        rw [hprev]
        exact hst
    · have htr : (RecordTransaction clk c tx).2.transitions = c.transitions := by
        rw [RecordTransaction_transitions, if_neg (fun h => hc h.2)]
      rw [RecordTransaction_fst_of_ne_nil _ _ _ hnil, htr]
      simp only [if_neg hc]
      refine ⟨?_, ?_, ?_⟩
      · constructor
        · intro h
          simp at h
        · rintro ⟨tr, h, -⟩
          exact absurd h.symm (hne_self tr)
      · simp
      · intro prev _ _
        trivial

/-- C19 at the tenth error outcome for processor_a: the stored status is Healthy,
the call returns Down, logs the transition and stamps status-changed-at with the
transition clock read. -/
theorem health.record_status_changed_at_iff_witness :
    (health.RecordTransaction { prune := 0, updated := 1, changed := 2 }
        (health.recordAll health.NewCalculator
          (health.burst "processor_a" domain.ResultError 9)).2
        (health.createTx "processor_a" domain.ResultError 0)).1.StatusChangedAt =
      some 2 ∧
    ∃ tr, (health.RecordTransaction { prune := 0, updated := 1, changed := 2 }
        (health.recordAll health.NewCalculator
          (health.burst "processor_a" domain.ResultError 9)).2
        (health.createTx "processor_a" domain.ResultError 0)).2.transitions =
        (health.recordAll health.NewCalculator
          (health.burst "processor_a" domain.ResultError 9)).2.transitions ++ [tr] ∧
      (health.RecordTransaction { prune := 0, updated := 1, changed := 2 }
        (health.recordAll health.NewCalculator
          (health.burst "processor_a" domain.ResultError 9)).2
        (health.createTx "processor_a" domain.ResultError 0)).1.StatusChangedAt =
        some tr.Timestamp :=
  ⟨by decide!,
    (health.record_status_changed_at_iff { prune := 0, updated := 1, changed := 2 }
      (health.recordAll health.NewCalculator
        (health.burst "processor_a" domain.ResultError 9)).2
      (health.createTx "processor_a" domain.ResultError 0)).1.mp (by decide!)⟩

/-- C20, as stated, fails: the first outcome ever recorded for processor_a (approved,
on a fresh calculator) returns a snapshot whose previous status is "HEALTHY", although
it is the processor's first computation and no transition is logged; a second
approved outcome, which leaves the status unchanged, returns "HEALTHY" as previous
status again. -/
theorem health.record_previous_status_without_transition :
    (health.RecordTransaction (health.clockAt 0) health.NewCalculator
        (health.createTx "processor_a" domain.ResultApproved 0)).1.PreviousStatus =
      domain.StatusHealthy ∧
    (health.RecordTransaction (health.clockAt 0) health.NewCalculator
        (health.createTx "processor_a" domain.ResultApproved 0)).2.transitions = [] ∧
    (health.RecordTransaction (health.clockAt 0)
        (health.RecordTransaction (health.clockAt 0) health.NewCalculator
          (health.createTx "processor_a" domain.ResultApproved 0)).2
        (health.createTx "processor_a" domain.ResultApproved 0)).1.PreviousStatus =
      domain.StatusHealthy ∧
    (health.RecordTransaction (health.clockAt 0)
        (health.RecordTransaction (health.clockAt 0) health.NewCalculator
          (health.createTx "processor_a" domain.ResultApproved 0)).2
        (health.createTx "processor_a" domain.ResultApproved 0)).2.transitions = [] := by
  decide!

/-- C20, amended: whenever `RecordTransaction` leaves a non-empty history for the
processor, the previous-status field of the returned snapshot is the status that was
stored for the processor before the call, or Healthy when none was stored, whether
or not the status changed; and when the call appends a transition, that transition's
from-status is the snapshot's previous status. -/
theorem health.record_previous_status (clk : health.Clock) (c : health.Calculator)
    (tx : domain.Transaction)
    (hne : health.history (health.RecordTransaction clk c tx).2 tx.ProcessorID ≠ []) :
    (health.RecordTransaction clk c tx).1.PreviousStatus =
      (match c.processors.get? tx.ProcessorID with
        | some prev => prev.Status
        | none => domain.StatusHealthy) ∧
    (∀ tr, (health.RecordTransaction clk c tx).2.transitions = c.transitions ++ [tr] →
      tr.FromStatus = (health.RecordTransaction clk c tx).1.PreviousStatus) := by
  open health domain in
  have hret : retained clk.prune (history c tx.ProcessorID ++ [tx]) ≠ [] := by
    rw [RecordTransaction_history, if_pos rfl] at hne
    exact hne
  rw [RecordTransaction_fst_of_ne_nil _ _ _ hret]
  refine ⟨rfl, ?_⟩
  intro tr htr
  rw [RecordTransaction_transitions] at htr
  split at htr
  · have h1 := List.append_cancel_left htr
    have h2 : tr = _ := (List.singleton_inj.mp h1).symm
    rw [h2]
  · have := congrArg List.length htr
    simp at this

/-- C20 amended, at the tenth error outcome for processor_a (stored status Healthy,
new status Down): the previous status of the returned snapshot is Healthy. -/
theorem health.record_previous_status_witness :
    (health.RecordTransaction (health.clockAt 0)
        (health.recordAll health.NewCalculator
          (health.burst "processor_a" domain.ResultError 9)).2
        (health.createTx "processor_a" domain.ResultError 0)).1.PreviousStatus =
      (match (health.recordAll health.NewCalculator
          (health.burst "processor_a" domain.ResultError 9)).2.processors.get?
          (health.createTx "processor_a" domain.ResultError 0).ProcessorID with
        | some prev => prev.Status
        | none => domain.StatusHealthy) :=
  (health.record_previous_status (health.clockAt 0)
    (health.recordAll health.NewCalculator
      (health.burst "processor_a" domain.ResultError 9)).2
    (health.createTx "processor_a" domain.ResultError 0) (by decide!)).1

/-- C21: `transitionReason a e` follows the priority of the status rules: the high
error/timeout rate message when `e > 0.50`; else the elevated error/timeout rate
message when `e > 0.30`; else the very low authorization rate message when
`a < 0.30`; else the low authorization rate message when `a < 0.65`; else
"Performance recovered".  And the reason of a transition appended by
`RecordTransaction` is `transitionReason` applied to the authorization rate of the
returned snapshot and to its error rate (error count over total). -/
theorem health.transitionReason_priority_table (a e : ℚ) :
    (health.transitionReason a e =
      if e > 0.50 then "High error/timeout rate (>50%)"
      else if e > 0.30 then "Elevated error/timeout rate (>30%)"
      else if a < 0.30 then "Very low authorization rate (<30%)"
      else if a < 0.65 then "Low authorization rate (<65%)"
      else "Performance recovered") ∧
    (∀ (clk : health.Clock) (c : health.Calculator) (tx : domain.Transaction)
      (tr : domain.HealthTransition),
      (health.RecordTransaction clk c tx).2.transitions = c.transitions ++ [tr] →
      tr.Reason =
        health.transitionReason (health.RecordTransaction clk c tx).1.AuthorizationRate
          (((health.RecordTransaction clk c tx).1.ErrorCount : ℚ) /
            ((health.RecordTransaction clk c tx).1.TotalTransactions : ℚ))) := by
  open health domain in
  refine ⟨?_, ?_⟩
  · simp only [transitionReason, healthyThreshold_eq, degradedThreshold_eq, errorRateDown_eq,
      errorRateDegraded_eq]
    norm_num
  · intro clk c tx tr htr
    rw [RecordTransaction_transitions] at htr
    split at htr
    · rename_i hc
      have h1 := List.append_cancel_left htr
      have h2 : tr = _ := (List.singleton_inj.mp h1).symm
      rw [h2, RecordTransaction_fst_of_ne_nil _ _ _ hc.1]
      rfl
    · have := congrArg List.length htr
      simp at this

/-- C21 at the tenth error outcome for processor_a: the appended transition carries
the high error/timeout rate message. -/
theorem health.transitionReason_priority_table_witness :
    (health.RecordTransaction (health.clockAt 0)
        (health.recordAll health.NewCalculator
          (health.burst "processor_a" domain.ResultError 9)).2
        (health.createTx "processor_a" domain.ResultError 0)).2.transitions.map
      (fun tr => (tr.FromStatus, tr.ToStatus, tr.Reason)) =
      [(domain.StatusHealthy, domain.StatusDown, "High error/timeout rate (>50%)")] ∧
    health.transitionReason 0 1 =
      (if (1 : ℚ) > 0.50 then "High error/timeout rate (>50%)"
      else if (1 : ℚ) > 0.30 then "Elevated error/timeout rate (>30%)"
      else if (0 : ℚ) < 0.30 then "Very low authorization rate (<30%)"
      else if (0 : ℚ) < 0.65 then "Low authorization rate (<65%)"
      else "Performance recovered") :=
  ⟨by decide!, (health.transitionReason_priority_table 0 1).1⟩

/-- C22: the reason of every entry of a recommendation is determined by its status
and rank: Down gives the down message; Degraded gives the best-available message at
rank 1 and the fallback message at any other rank; Healthy gives the best-option
message at rank 1 and the healthy-fallback message at any other rank. -/
theorem routing.recommend_reason (Slice : routing.Sorter) (now : domain.Time)
    (e : routing.Engine) (method : domain.PaymentMethod) (country : domain.Country)
    (amount : ℚ) (r : domain.ProcessorRank)
    (hr : r ∈ (routing.Recommend Slice now e method country amount).Recommendations) :
    (r.Status = domain.StatusDown → r.Reason = "Processor is DOWN - not recommended") ∧
    (r.Status = domain.StatusDegraded → r.Rank = 1 →
      r.Reason = "Best available but DEGRADED - use with caution") ∧
    (r.Status = domain.StatusDegraded → r.Rank ≠ 1 →
      r.Reason = "DEGRADED - available as fallback") ∧
    (r.Status = domain.StatusHealthy → r.Rank = 1 →
      r.Reason = "Best option - highest authorization rate") ∧
    (r.Status = domain.StatusHealthy → r.Rank ≠ 1 →
      r.Reason = "Healthy fallback option") := by
  open routing domain in
  have hall : ∀ (l : List scored) (i : Nat), ∀ x ∈ buildRankings i l,
      x.Reason = reasonForRank
        { ProcessorID := "", Status := x.Status, AuthorizationRate := 0,
          TotalTransactions := 0, SuccessCount := 0, FailureCount := 0, ErrorCount := 0,
          LastUpdated := 0, StatusChangedAt := none, PreviousStatus := "" }
        0 (decide (x.Rank = 1) && decide (x.Status ≠ StatusDown)) := by
    intro l
    induction l with
    | nil => intro i x hx; simp [buildRankings] at hx
    | cons s rest ih =>
      intro i x hx
      simp only [buildRankings, List.mem_cons] at hx
      rcases hx with h1 | h1
      · rw [h1]
        have hrank : decide (((i : Int) + 1) = 1) = decide (i = 0) := by
          by_cases hi : i = 0
          · simp [hi]
          · have : ¬ ((i : Int) + 1 = 1) := by omega
            simp [hi, this]
        simp only [hrank]
        rfl
      · exact ih (i + 1) x h1
  have hrec : (Recommend Slice now e method country amount).Recommendations = [] ∨
      ∃ l, (Recommend Slice now e method country amount).Recommendations =
        buildRankings 0 l := by
    unfold Recommend rankProcessors
    simp only
    split
    · exact Or.inl rfl
    · exact Or.inr ⟨_, rfl⟩
  rcases hrec with h0 | ⟨l, hl⟩
  · rw [h0] at hr
    simp at hr
  · rw [hl] at hr
    have hreason := hall l 0 r hr
    have hdh : StatusDegraded ≠ StatusDown := by decide
    have hhd : StatusHealthy ≠ StatusDown := by decide
    have hhg : StatusHealthy ≠ StatusDegraded := by decide
    refine ⟨?_, ?_, ?_, ?_, ?_⟩
    · intro hs
      rw [hreason]
      simp [reasonForRank, hs]
    · intro hs hk
      rw [hreason]
      simp [reasonForRank, hs, hk, hdh]
    · intro hs hk
      rw [hreason]
      simp [reasonForRank, hs, hk, hdh]
    · intro hs hk
      rw [hreason]
      simp [reasonForRank, hs, hk, hhd, hhg]
    · intro hs hk
      rw [hreason]
      simp [reasonForRank, hs, hk, hhd, hhg]

/-- C22 at the engine test (processor_a Down, processor_b Healthy at rank 1). -/
theorem routing.recommend_reason_witness :
    ({ ProcessorID := "processor_b", Rank := 1, Status := domain.StatusHealthy,
       AuthorizationRate := 1, Recommended := true,
       Reason := "Best option - highest authorization rate" } : domain.ProcessorRank) ∈
      (routing.Recommend sort.insertionSort 0
        (routing.twoProcessorEngine
          (health.recordAll health.NewCalculator
            (health.burst "processor_a" domain.ResultError 50 ++
              health.burst "processor_b" domain.ResultApproved 50)).2)
        domain.MethodPIX domain.CountryBR 100).Recommendations ∧
    ({ ProcessorID := "processor_b", Rank := 1, Status := domain.StatusHealthy,
       AuthorizationRate := 1, Recommended := true,
       Reason := "Best option - highest authorization rate" } : domain.ProcessorRank).Reason =
      "Best option - highest authorization rate" :=
  ⟨by decide!,
    (routing.recommend_reason sort.insertionSort 0
      (routing.twoProcessorEngine
        (health.recordAll health.NewCalculator
          (health.burst "processor_a" domain.ResultError 50 ++
            health.burst "processor_b" domain.ResultApproved 50)).2)
      domain.MethodPIX domain.CountryBR 100
      { ProcessorID := "processor_b", Rank := 1, Status := domain.StatusHealthy,
        AuthorizationRate := 1, Recommended := true,
        Reason := "Best option - highest authorization rate" }
      (by decide!)).2.2.2.1 rfl rfl⟩

/-- C26: the amount argument does not influence the recommendation: with the same
registry, health state, method and country (and the same clock read), any two
amounts give the same result, entries and echoed method and country included. -/
theorem routing.recommend_amount_irrelevant (Slice : routing.Sorter) (now : domain.Time)
    (e : routing.Engine) (method : domain.PaymentMethod) (country : domain.Country)
    (x y : ℚ) :
    routing.Recommend Slice now e method country x =
        routing.Recommend Slice now e method country y ∧
    (routing.Recommend Slice now e method country x).PaymentMethod = method ∧
    (routing.Recommend Slice now e method country x).Country = country :=
  ⟨rfl, rfl, rfl⟩

/-- C23: in every snapshot returned by `RecordTransaction`, the outcomes of the scoring
window whose result is none of approved, declined, error, timeout count towards the
total but towards none of the three counts: success + failure + error is the total
minus the number of such outcomes in the window.  Recording never fails: whatever its
result, an outcome inside the retention window ends the stored history. -/
theorem health.record_unrecognized_outside_buckets (clk : health.Clock)
    (c : health.Calculator) (tx : domain.Transaction) :
    ((health.RecordTransaction clk c tx).1.SuccessCount +
        (health.RecordTransaction clk c tx).1.FailureCount +
        (health.RecordTransaction clk c tx).1.ErrorCount =
      (health.RecordTransaction clk c tx).1.TotalTransactions -
        (((health.scoringWindow
          (health.history (health.RecordTransaction clk c tx).2 tx.ProcessorID)).countP
          (fun o => !health.recognized o.Result) : Nat) : Int)) ∧
    (health.Fresh clk.prune tx →
      (health.history (health.RecordTransaction clk c tx).2 tx.ProcessorID).getLast? =
        some tx) := by
  open health domain in
  refine ⟨?_, ?_⟩
  · rw [RecordTransaction_fst clk c tx]
    by_cases hnil : history (RecordTransaction clk c tx).2 tx.ProcessorID = []
    · simp [hnil, scoringWindow]
    · simp only [if_neg hnil]
      rw [tally_eq]
      simp only
      have := countP_buckets (scoringWindow (history (RecordTransaction clk c tx).2 tx.ProcessorID))
      omega
  · intro hf
    rw [RecordTransaction_history, if_pos rfl]
    obtain ⟨pre, hpre⟩ := retained_append_fresh clk.prune (history c tx.ProcessorID) [tx]
      (by intro t ht; rw [List.mem_singleton.mp ht]; exact hf) (by simp [WindowSize])
    rw [hpre]
    simp

/-- C23 with a "refunded" outcome on a fresh calculator: it is stored, the total is
1 and the three counts are 0. -/
theorem health.record_unrecognized_outside_buckets_witness :
    health.Fresh (health.clockAt 0).prune (health.createTx "processor_a" "refunded" 0) ∧
    (health.history
        (health.RecordTransaction (health.clockAt 0) health.NewCalculator
          (health.createTx "processor_a" "refunded" 0)).2
        (health.createTx "processor_a" "refunded" 0).ProcessorID).getLast? =
      some (health.createTx "processor_a" "refunded" 0) ∧
    ((health.RecordTransaction (health.clockAt 0) health.NewCalculator
        (health.createTx "processor_a" "refunded" 0)).1.TotalTransactions,
      (health.RecordTransaction (health.clockAt 0) health.NewCalculator
        (health.createTx "processor_a" "refunded" 0)).1.SuccessCount,
      (health.RecordTransaction (health.clockAt 0) health.NewCalculator
        (health.createTx "processor_a" "refunded" 0)).1.FailureCount,
      (health.RecordTransaction (health.clockAt 0) health.NewCalculator
        (health.createTx "processor_a" "refunded" 0)).1.ErrorCount) = (1, 0, 0, 0) :=
  ⟨by decide,
    (health.record_unrecognized_outside_buckets (health.clockAt 0) health.NewCalculator
      (health.createTx "processor_a" "refunded" 0)).2 (by decide),
    by decide⟩

/-- C24: the transition log is append-only.  For every calculator state and every API
call (RecordTransaction, GetHealth, GetAllHealth, GetTransitions,
GetRecentTransactions) the log before the call is a prefix of the log after it, a
single call lengthens it by at most one entry, and the same prefix relation holds
across any sequence of calls. -/
theorem health.transition_log_append_only (c : health.Calculator) (op : health.Op)
    (ops : List health.Op) :
    c.transitions <+: (health.step c op).transitions ∧
    (health.step c op).transitions.length ≤ c.transitions.length + 1 ∧
    c.transitions <+: (health.run c ops).transitions := by
  open health in
  refine ⟨step_log_extends c op, ?_, run_log_extends c ops⟩
  cases op with
  | record clk tx =>
    simp only [step]
    rw [RecordTransaction_transitions]
    split <;> simp
  | getHealth now id => simp [step]
  | getAllHealth => simp [step]
  | getTransitions since => simp [step]
  | getRecentTransactions id limit => simp [step]

/-- C25: `GetHealth` and `GetAllHealth` are read-only.  Each leaves the calculator
state (histories, stored snapshots, transition log) as it was; so after any number of
such calls, with no `RecordTransaction` in between, `GetAllHealth` returns the same
snapshots and `GetHealth` returns the same status, authorization rate and counts
(only the last-updated stamp of the synthesized default follows the clock). -/
theorem health.health_queries_read_only (c : health.Calculator) :
    (∀ now id, health.step c (health.Op.getHealth now id) = c) ∧
    health.step c health.Op.getAllHealth = c ∧
    (∀ ops : List health.Op, (∀ op ∈ ops, op.isHealthQuery = true) →
      health.run c ops = c ∧
      health.GetAllHealth (health.run c ops) = health.GetAllHealth c ∧
      ∀ (now1 now2 : domain.Time) (id : String),
        (health.GetHealth now2 (health.run c ops) id).Status =
            (health.GetHealth now1 c id).Status ∧
          (health.GetHealth now2 (health.run c ops) id).AuthorizationRate =
            (health.GetHealth now1 c id).AuthorizationRate ∧
          (health.GetHealth now2 (health.run c ops) id).TotalTransactions =
            (health.GetHealth now1 c id).TotalTransactions ∧
          (health.GetHealth now2 (health.run c ops) id).SuccessCount =
            (health.GetHealth now1 c id).SuccessCount ∧
          (health.GetHealth now2 (health.run c ops) id).FailureCount =
            (health.GetHealth now1 c id).FailureCount ∧
          (health.GetHealth now2 (health.run c ops) id).ErrorCount =
            (health.GetHealth now1 c id).ErrorCount) := by
  open health in
  refine ⟨fun _ _ => rfl, rfl, ?_⟩
  intro ops hq
  rw [run_health_queries c ops hq]
  refine ⟨rfl, rfl, ?_⟩
  intro now1 now2 id
  unfold GetHealth
  cases c.processors.get? id with
  | none => exact ⟨rfl, rfl, rfl, rfl, rfl, rfl⟩
  | some h => exact ⟨rfl, rfl, rfl, rfl, rfl, rfl⟩

/-- C25 after 10 error outcomes for processor_a: three health queries in a row leave
the state as it was. -/
theorem health.health_queries_read_only_witness :
    (∀ op ∈ [health.Op.getHealth 1 "processor_a", health.Op.getAllHealth,
        health.Op.getHealth 2 "processor_b"], op.isHealthQuery = true) ∧
    health.run
        (health.recordAll health.NewCalculator
          (health.burst "processor_a" domain.ResultError 10)).2
        [health.Op.getHealth 1 "processor_a", health.Op.getAllHealth,
          health.Op.getHealth 2 "processor_b"] =
      (health.recordAll health.NewCalculator
        (health.burst "processor_a" domain.ResultError 10)).2 :=
  ⟨by simp [health.Op.isHealthQuery],
    ((health.health_queries_read_only
      (health.recordAll health.NewCalculator
        (health.burst "processor_a" domain.ResultError 10)).2).2.2
      [health.Op.getHealth 1 "processor_a", health.Op.getAllHealth,
        health.Op.getHealth 2 "processor_b"]
      (by simp [health.Op.isHealthQuery])).1⟩

/-- C27: `RegisterProcessor` is an idempotent upsert keyed by processor id, last write
wins.  For profiles `p` and `q` with the same id: registering `p` twice gives the
registry of registering it once; registering `p` then `q` gives the registry of
registering `q` alone, whose entry for that id is `q`; entries under any other id are
unchanged; and a registry with distinct keys keeps distinct keys. -/
theorem routing.registerProcessor_upsert (e : routing.Engine) (p q : domain.Processor)
    (hid : p.ID = q.ID) (hnd : (e.processors.map Prod.fst).Nodup) :
    routing.RegisterProcessor (routing.RegisterProcessor e p) p =
      routing.RegisterProcessor e p ∧
    routing.RegisterProcessor (routing.RegisterProcessor e p) q =
      routing.RegisterProcessor e q ∧
    (routing.RegisterProcessor (routing.RegisterProcessor e p) q).processors.get? p.ID =
      some q ∧
    (∀ k, k ≠ p.ID →
      (routing.RegisterProcessor (routing.RegisterProcessor e p) q).processors.get? k =
        e.processors.get? k) ∧
    ((routing.RegisterProcessor e p).processors.map Prod.fst).Nodup ∧
    ((routing.RegisterProcessor (routing.RegisterProcessor e p) q).processors.map
      Prod.fst).Nodup := by
  open routing in
  refine ⟨?_, ?_, ?_, ?_, ?_, ?_⟩
  · simp [RegisterProcessor, GoMap.set_set]
  · simp [RegisterProcessor, ← hid, GoMap.set_set]
  · simp [RegisterProcessor, ← hid, GoMap.get?_set_self]
  · intro k hk
    simp only [RegisterProcessor, ← hid]
    rw [GoMap.get?_set_ne _ _ _ _ hk, GoMap.get?_set_ne _ _ _ _ hk]
  · exact GoMap.nodup_keys_set _ _ _ hnd
  · exact GoMap.nodup_keys_set _ _ _ (GoMap.nodup_keys_set _ _ _ hnd)

/-- C27 on the registry of the filter test: `processor_pix` is registered again with
another name and capability lists; the registry still has two entries and the one
for `processor_pix` is the new profile. -/
theorem routing.registerProcessor_upsert_witness :
    (routing.GetProcessors
        (routing.RegisterProcessor
          (routing.RegisterProcessor routing.filterEngine (routing.pixBR "processor_pix"))
          { ID := "processor_pix", Name := "renamed", Countries := [domain.CountryMX],
            PaymentMethods := [domain.MethodCard] })).map (fun x => (x.ID, x.Name)) =
      [("processor_pix", "renamed"), ("processor_card", "")] ∧
    (routing.RegisterProcessor
        (routing.RegisterProcessor routing.filterEngine (routing.pixBR "processor_pix"))
        { ID := "processor_pix", Name := "renamed", Countries := [domain.CountryMX],
          PaymentMethods := [domain.MethodCard] }).processors.get?
        (routing.pixBR "processor_pix").ID =
      some { ID := "processor_pix", Name := "renamed", Countries := [domain.CountryMX],
             PaymentMethods := [domain.MethodCard] } :=
  ⟨by decide,
    (routing.registerProcessor_upsert routing.filterEngine (routing.pixBR "processor_pix")
      { ID := "processor_pix", Name := "renamed", Countries := [domain.CountryMX],
        PaymentMethods := [domain.MethodCard] } (by decide) (by decide)).2.2.1⟩

/-- C28: in every state reached from a fresh calculator by any sequence of API calls,
the snapshot returned by `RecordTransaction` and the snapshot returned by `GetHealth`
have an authorization rate between 0 and 1 inclusive. -/
theorem health.authorization_rate_in_unit_interval (ops : List health.Op)
    (clk : health.Clock) (tx : domain.Transaction) (now : domain.Time) (id : String) :
    (0 ≤ (health.RecordTransaction clk (health.run health.NewCalculator ops) tx).1.AuthorizationRate ∧
      (health.RecordTransaction clk (health.run health.NewCalculator ops) tx).1.AuthorizationRate ≤ 1) ∧
    (0 ≤ (health.GetHealth now (health.run health.NewCalculator ops) id).AuthorizationRate ∧
      (health.GetHealth now (health.run health.NewCalculator ops) id).AuthorizationRate ≤ 1) := by
  open health in
  refine ⟨RecordTransaction_rate_bounds clk _ tx, ?_⟩
  unfold GetHealth
  cases hg : (run NewCalculator ops).processors.get? id with
  | none => norm_num
  | some h =>
    exact run_stored_rate_bounds NewCalculator ops
      (by intro kv hkv; simp [NewCalculator] at hkv) (id, h) (GoMap.mem_of_get? _ _ _ hg)

/-- C29, as stated, fails: processor_a is Down after 50 error outcomes (score 5),
processor_b is Healthy with three declined outcomes (rate 0, score 0).  A matching
candidate is not Down, yet the rank-1 entry is the Down one and no entry is
recommended. -/
theorem routing.recommend_none_recommended_with_healthy :
    (routing.Recommend sort.insertionSort 0
        (routing.twoProcessorEngine
          (health.recordAll health.NewCalculator
            (health.burst "processor_a" domain.ResultError 50 ++
              health.burst "processor_b" domain.ResultDeclined 3)).2)
        domain.MethodPIX domain.CountryBR 100).Recommendations.map
      (fun r => (r.ProcessorID, r.Rank, r.Status, r.Recommended)) =
      [("processor_a", 1, domain.StatusDown, false),
        ("processor_b", 2, domain.StatusHealthy, false)] := by
  decide!

/-- C29, amended: if some matching candidate scores strictly higher than every matching
candidate whose status is Down (such a candidate is itself not Down; any candidate
does when no matching candidate is Down), then, for any `sort.Slice` meeting its
contract, the recommendation holds exactly one entry with recommended = true, and it
is the first entry, of rank 1 and not Down. -/
theorem routing.recommend_exactly_one_recommended (Slice : routing.Sorter)
    (hS : sort.SliceContract Slice) (now : domain.Time) (e : routing.Engine)
    (method : domain.PaymentMethod) (country : domain.Country) (amount : ℚ)
    (p : domain.Processor) (hp : p ∈ routing.findCandidates e method country)
    (hbeats : ∀ d ∈ routing.findCandidates e method country,
      (health.GetHealth now e.calculator d.ID).Status = domain.StatusDown →
      routing.calculateScore (health.GetHealth now e.calculator d.ID) <
        routing.calculateScore (health.GetHealth now e.calculator p.ID)) :
    (routing.Recommend Slice now e method country amount).Recommendations.countP
        (fun r => r.Recommended) = 1 ∧
    ∃ r, (routing.Recommend Slice now e method country amount).Recommendations.head? =
        some r ∧
      r.Rank = 1 ∧ r.Status ≠ domain.StatusDown ∧ r.Recommended = true := by
  open routing domain in
  have hrecs : (Recommend Slice now e method country amount).Recommendations =
      buildRankings 0 (Slice scoreLess (scoreAll now e (findCandidates e method country))) :=
    rankProcessors_eq Slice hS now e _
  have hperm := hS.perm scoreLess (scoreAll now e (findCandidates e method country))
  have hsorted := sorted_scores Slice hS (scoreAll now e (findCandidates e method country))
  -- the scored element of the candidate that beats every Down one
  have hsmem : scored.mk p (health.GetHealth now e.calculator p.ID)
      (calculateScore (health.GetHealth now e.calculator p.ID)) ∈
      Slice scoreLess (scoreAll now e (findCandidates e method country)) := by
    apply hperm.mem_iff.mpr
    unfold scoreAll
    exact List.mem_map.mpr ⟨p, hp, rfl⟩
  rw [hrecs]
  cases hl : Slice scoreLess (scoreAll now e (findCandidates e method country)) with
  | nil => rw [hl] at hsmem; simp at hsmem
  | cons s0 rest =>
    rw [hl] at hsmem hsorted
    have hs0mem : s0 ∈ scoreAll now e (findCandidates e method country) := by
      apply hperm.mem_iff.mp
      rw [hl]
      exact List.mem_cons_self _ _
    obtain ⟨hs0cand, hs0health, hs0score⟩ := mem_scoreAll now e _ s0 hs0mem
    have hs0ge : s0.score ≥ calculateScore (health.GetHealth now e.calculator p.ID) := by
      rcases List.mem_cons.mp hsmem with h1 | h1
      · rw [← h1]
      · exact List.rel_of_pairwise_cons hsorted h1
    have hs0notDown : s0.health.Status ≠ StatusDown := by
      intro hd
      have hlt := hbeats s0.processor hs0cand (by rw [← hs0health]; exact hd)
      rw [← hs0health, ← hs0score] at hlt
      simp only [ge_iff_le] at hs0ge
      linarith
    have hdec : decide (s0.health.Status ≠ StatusDown) = true := decide_eq_true hs0notDown
    refine ⟨?_, ?_⟩
    · simp only [buildRankings, List.countP_cons]
      rw [countP_recommended_buildRankings rest (0 + 1) (by omega)]
      simp [hdec]
    · refine ⟨_, rfl, ?_, ?_, ?_⟩
      · simp
      · exact hs0notDown
      · simp [hdec]

/-- C29 amended, with processor_a Down after 50 error outcomes (score 5) and
processor_b Degraded after 1 approved, 29 declined and 20 error outcomes (error rate
2/5, authorization rate 1/30, score 5/3 + 5): processor_b is not Down and out-scores
the Down candidate, and exactly one entry is recommended. -/
theorem routing.recommend_exactly_one_recommended_witness :
    (routing.pixBR "processor_b" ∈
        routing.findCandidates
          (routing.twoProcessorEngine
            (health.recordAll health.NewCalculator
              (health.burst "processor_a" domain.ResultError 50 ++
                health.burst "processor_b" domain.ResultApproved 1 ++
                health.burst "processor_b" domain.ResultDeclined 29 ++
                health.burst "processor_b" domain.ResultError 20)).2)
          domain.MethodPIX domain.CountryBR ∧
      (health.GetHealth 0
          (routing.twoProcessorEngine
            (health.recordAll health.NewCalculator
              (health.burst "processor_a" domain.ResultError 50 ++
                health.burst "processor_b" domain.ResultApproved 1 ++
                health.burst "processor_b" domain.ResultDeclined 29 ++
                health.burst "processor_b" domain.ResultError 20)).2).calculator
          "processor_b").Status = domain.StatusDegraded ∧
      (health.GetHealth 0
          (routing.twoProcessorEngine
            (health.recordAll health.NewCalculator
              (health.burst "processor_a" domain.ResultError 50 ++
                health.burst "processor_b" domain.ResultApproved 1 ++
                health.burst "processor_b" domain.ResultDeclined 29 ++
                health.burst "processor_b" domain.ResultError 20)).2).calculator
          "processor_b").AuthorizationRate = 1 / 30) ∧
    (routing.Recommend sort.insertionSort 0
        (routing.twoProcessorEngine
          (health.recordAll health.NewCalculator
            (health.burst "processor_a" domain.ResultError 50 ++
              health.burst "processor_b" domain.ResultApproved 1 ++
              health.burst "processor_b" domain.ResultDeclined 29 ++
              health.burst "processor_b" domain.ResultError 20)).2)
        domain.MethodPIX domain.CountryBR 100).Recommendations.countP
      (fun r => r.Recommended) = 1 :=
  ⟨by decide!,
    (routing.recommend_exactly_one_recommended sort.insertionSort
      sort.insertionSort_contract 0
      (routing.twoProcessorEngine
        (health.recordAll health.NewCalculator
          (health.burst "processor_a" domain.ResultError 50 ++
            health.burst "processor_b" domain.ResultApproved 1 ++
            health.burst "processor_b" domain.ResultDeclined 29 ++
            health.burst "processor_b" domain.ResultError 20)).2)
      domain.MethodPIX domain.CountryBR 100 (routing.pixBR "processor_b") (by decide!)
      (by decide!)).1⟩

/-- C30, the failing input: processor_a is driven to Down by ten error outcomes at
instant 0; eleven minutes later one more error outcome, stamped with the current
time, is recorded.  Pruning leaves that single outcome, the sample-size gate of
`determineStatus` makes the status Healthy, and the transition Down to Healthy is
logged with the reason `transitionReason` computes from the rates alone: the high
error/timeout rate message. -/
theorem health.record_transition_to_healthy_with_error_reason :
    (health.RecordTransaction (health.clockAt health.elevenMinutes)
        (health.recordAll health.NewCalculator
          (health.burst "processor_a" domain.ResultError 10)).2
        (health.createTx "processor_a" domain.ResultError health.elevenMinutes)).2.transitions.map
      (fun tr => (tr.ProcessorID, tr.FromStatus, tr.ToStatus, tr.Reason)) =
      [("processor_a", domain.StatusHealthy, domain.StatusDown,
          "High error/timeout rate (>50%)"),
        ("processor_a", domain.StatusDown, domain.StatusHealthy,
          "High error/timeout rate (>50%)")] ∧
    (health.RecordTransaction (health.clockAt health.elevenMinutes)
        (health.recordAll health.NewCalculator
          (health.burst "processor_a" domain.ResultError 10)).2
        (health.createTx "processor_a" domain.ResultError health.elevenMinutes)).1.TotalTransactions =
      1 := by
  decide!

/-- C31: `RecordTransaction` of an outcome for processor `p` touches only `p`.  For
every processor `q` other than `p`, the history entry of `q` and the snapshot stored
for `q` (or its absence) are the same before and after the call, so `GetHealth` for
`q` answers as before; and the log is either unchanged or extended by one transition,
which carries processor id `p`. -/
theorem health.record_touches_only_its_processor (clk : health.Clock)
    (c : health.Calculator) (tx : domain.Transaction) (q : String)
    (hq : q ≠ tx.ProcessorID) :
    (health.RecordTransaction clk c tx).2.transactions.get? q = c.transactions.get? q ∧
    health.history (health.RecordTransaction clk c tx).2 q = health.history c q ∧
    (health.RecordTransaction clk c tx).2.processors.get? q = c.processors.get? q ∧
    (∀ now, health.GetHealth now (health.RecordTransaction clk c tx).2 q =
      health.GetHealth now c q) ∧
    ((health.RecordTransaction clk c tx).2.transitions = c.transitions ∨
      ∃ tr, (health.RecordTransaction clk c tx).2.transitions = c.transitions ++ [tr] ∧
        tr.ProcessorID = tx.ProcessorID) ∧
    (∀ tr, (health.RecordTransaction clk c tx).2.transitions = c.transitions ++ [tr] →
      tr.ProcessorID = tx.ProcessorID) := by
  open health domain in
  have hproc : (RecordTransaction clk c tx).2.processors.get? q = c.processors.get? q := by
    rw [RecordTransaction_processors]
    exact GoMap.get?_set_ne _ _ _ _ hq
  refine ⟨RecordTransaction_transactions_get? clk c tx q hq, ?_, hproc, ?_, ?_, ?_⟩
  · rw [RecordTransaction_history, if_neg hq]
  · intro now
    unfold GetHealth
    rw [hproc]
  · rw [RecordTransaction_transitions]
    split
    · exact Or.inr ⟨_, rfl, rfl⟩
    · exact Or.inl rfl
  · intro tr htr
    rw [RecordTransaction_transitions] at htr
    split at htr
    · have h1 := List.append_cancel_left htr
      have h2 : tr = _ := (List.singleton_inj.mp h1).symm
      rw [h2]
    · have := congrArg List.length htr
      simp at this

/-- C31 with processor_a at nine error outcomes and processor_b at three approved
ones: the tenth error outcome for processor_a (which turns it Down and logs a
transition for processor_a) leaves the history and the snapshot of processor_b as
they were. -/
theorem health.record_touches_only_its_processor_witness :
    "processor_b" ≠ (health.createTx "processor_a" domain.ResultError 0).ProcessorID ∧
    ((health.history
        (health.recordAll health.NewCalculator
          (health.burst "processor_a" domain.ResultError 9 ++
            health.burst "processor_b" domain.ResultApproved 3)).2 "processor_b").length = 3 ∧
      (health.RecordTransaction (health.clockAt 0)
        (health.recordAll health.NewCalculator
          (health.burst "processor_a" domain.ResultError 9 ++
            health.burst "processor_b" domain.ResultApproved 3)).2
        (health.createTx "processor_a" domain.ResultError 0)).2.transitions.map
        (fun tr => (tr.ProcessorID, tr.ToStatus)) =
        [("processor_a", domain.StatusDown)]) ∧
    health.history
        (health.RecordTransaction (health.clockAt 0)
          (health.recordAll health.NewCalculator
            (health.burst "processor_a" domain.ResultError 9 ++
              health.burst "processor_b" domain.ResultApproved 3)).2
          (health.createTx "processor_a" domain.ResultError 0)).2 "processor_b" =
      health.history
        (health.recordAll health.NewCalculator
          (health.burst "processor_a" domain.ResultError 9 ++
            health.burst "processor_b" domain.ResultApproved 3)).2 "processor_b" ∧
    (health.RecordTransaction (health.clockAt 0)
        (health.recordAll health.NewCalculator
          (health.burst "processor_a" domain.ResultError 9 ++
            health.burst "processor_b" domain.ResultApproved 3)).2
        (health.createTx "processor_a" domain.ResultError 0)).2.processors.get?
        "processor_b" =
      (health.recordAll health.NewCalculator
        (health.burst "processor_a" domain.ResultError 9 ++
          health.burst "processor_b" domain.ResultApproved 3)).2.processors.get?
        "processor_b" :=
  ⟨by decide, by decide!,
    (health.record_touches_only_its_processor (health.clockAt 0)
      (health.recordAll health.NewCalculator
        (health.burst "processor_a" domain.ResultError 9 ++
          health.burst "processor_b" domain.ResultApproved 3)).2
      (health.createTx "processor_a" domain.ResultError 0) "processor_b" (by decide)).2.1,
    (health.record_touches_only_its_processor (health.clockAt 0)
      (health.recordAll health.NewCalculator
        (health.burst "processor_a" domain.ResultError 9 ++
          health.burst "processor_b" domain.ResultApproved 3)).2
      (health.createTx "processor_a" domain.ResultError 0) "processor_b" (by decide)).2.2.1⟩
